import Mathlib

/-!
# Verification of the trading-bot safety core

A shallow embedding, in Lean 4, of the trade-safety gating and accounting
subsystem of the trading bot:

* `RiskEngine` (src/app/risk/risk_engine.py): kill/pause controls, daily
  trade quotas, per-trade notional cap, PnL circuit breakers;
* the order-safety evaluator (src/app/exchange/kraken_orders.py):
  spread/slippage checks, sizing, minimum-order-size check, limit pricing,
  and `place_or_preview`;
* the position-and-cooldown ledger's write protocol (src/app/util/ledger.py);
* the PnL analytics engine (src/app/util/pnl_analytics.py).

Python floats are modelled as exact rationals (`Rat`); Python ints as `Int`
(or `Nat` for counters that only count up from zero); Python dicts as
insertion-ordered association lists.  Filesystem effects (kill/pause marker
files, the live latch, the wall-clock UTC day, order-placement responses)
are passed to each operation as explicit inputs.
-/

/-! ## Association-list helpers (model of Python `dict`)

Python dicts preserve insertion order; `aset` updates an existing key in
place and appends a fresh key at the end, exactly as a dict assignment does.
-/

/-- `d.get(k, default)`-style lookup in an insertion-ordered map. -/
def alookup {α : Type} (l : List (String × α)) (k : String) : Option α :=
  match l with
  | [] => none
  | (k', v) :: t => if k' = k then some v else alookup t k

/-- `d.get(k, dflt)`. -/
def alookupD {α : Type} (l : List (String × α)) (k : String) (dflt : α) : α :=
  (alookup l k).getD dflt

/-- `d[k] = v`: overwrite an existing entry in place, else append. -/
def aset {α : Type} (l : List (String × α)) (k : String) (v : α) : List (String × α) :=
  match l with
  | [] => [(k, v)]
  | (k', w) :: t => if k' = k then (k', v) :: t else (k', w) :: aset t k v

/-- Apply `f` to the entry at key `k` (no-op when the key is absent). -/
def aupd {α : Type} (l : List (String × α)) (k : String) (f : α → α) : List (String × α) :=
  l.map (fun p => if p.1 = k then (p.1, f p.2) else p)

/-! ## Numeric formatting helpers

The Python source renders floats with `f"{x:.Nf}"` (fixed-point,
round-half-even) and re-reads rounded volume strings with `float(...)`.
Under the exact-rational model of floats, `f"{x:.Nf}"` is fixed-point
formatting of the rational with round-half-even, and `float(f"{x:.Nf}")`
is the rational value of that rounding.
-/

/-- `x·10^p` rounded to the nearest integer, ties to even (Python `round`/
`format` tie-breaking), computed on the reduced numerator/denominator: with
`n = x.num·10^p` and `d = x.den`, the floor is `n.fdiv d` and the tie test
compares twice the remainder with `d`. -/
def roundScaled (p : Nat) (x : Rat) : Int :=
  let n := x.num * (10 : Int) ^ p
  let d := (x.den : Int)
  let fl := Int.fdiv n d
  let r2 := 2 * (n - fl * d)
  if r2 < d then fl
  else if d < r2 then fl + 1
  else if fl % 2 = 0 then fl else fl + 1

/-- Numeric value of `f"{x:.pf}"`: `x` rounded (half-even) to `p` decimal
places. -/
def roundToDec (p : Nat) (x : Rat) : Rat :=
  (roundScaled p x : Rat) / (10 : Rat) ^ p

/-- Left-pad a digit string with zeros up to width `w`. -/
def padZeros (s : String) (w : Nat) : String :=
  if s.length < w then String.mk (List.replicate (w - s.length) '0') ++ s else s

/-- The string `f"{x:.pf}"` (fixed-point, `p` fractional digits,
round-half-even; the sign of a negative zero is not reproduced). -/
def pyFormatFixed (p : Nat) (x : Rat) : String :=
  let n := roundScaled p x
  let sign := if n < 0 then "-" else ""
  let m := n.natAbs
  let ip := m / 10 ^ p
  let fp := m % 10 ^ p
  if p = 0 then sign ++ toString ip
  else sign ++ toString ip ++ "." ++ padZeros (toString fp) p

/-- `pat` occurs as a substring of `s`. -/
def strContains (s pat : String) : Prop :=
  ∃ a b, s = a ++ pat ++ b

/-! ## RiskEngine (src/app/risk/risk_engine.py)

State of one `RiskEngine` instance.  Config values read in `__init__`
become fields; the presence of the kill/pause marker files and the current
UTC day key are inputs of each method that consults them.
-/

/-- Return value of `RiskEngine.can_trade`. -/
structure RiskDecision where
  allowed : Bool
  reason : String
deriving DecidableEq, Repr

/-- In-memory state of a `RiskEngine` (config fields plus mutable state). -/
structure RiskEngine where
  /-- `controls.pause_file` (default "/run/trading/PAUSE"). -/
  pause_file : String
  /-- `trade.max_notional_usd_per_trade` (default 20.0). -/
  max_notional_usd_per_trade : Rat
  /-- `trade.max_trades_per_day` (default 3). -/
  max_trades_per_day : Int
  /-- `trade.max_trades_per_day_per_pair` (default `max_trades_per_day`). -/
  max_trades_per_day_per_pair : Int
  /-- `account.max_daily_loss_usd` (default 0.0). -/
  max_daily_loss_usd : Rat
  /-- `account.max_drawdown_usd` (default 0.0). -/
  max_drawdown_usd : Rat
  /-- UTC `YYYY-MM-DD` key of the day the counters belong to. -/
  day_key : String
  trades_today : Int
  trades_today_by_pair : List (String × Int)
  portfolio_realized : Rat
  portfolio_max_dd : Rat
  /-- Sticky pause reason (`None` = not internally paused). -/
  pause_reason : Option String
deriving DecidableEq, Repr

/-- `RiskEngine.__init__` with the config defaults, counters zeroed, day key
`today`. -/
def RiskEngine.init (today : String) : RiskEngine :=
  { pause_file := "/run/trading/PAUSE"
    max_notional_usd_per_trade := 20
    max_trades_per_day := 3
    max_trades_per_day_per_pair := 3
    max_daily_loss_usd := 0
    max_drawdown_usd := 0
    day_key := today
    trades_today := 0
    trades_today_by_pair := []
    portfolio_realized := 0
    portfolio_max_dd := 0
    pause_reason := none }

/-- `RiskEngine._roll_day_if_needed` (`today` is `_utc_day_key()`). -/
def roll_day_if_needed (today : String) (e : RiskEngine) : RiskEngine :=
  if today ≠ e.day_key then
    { e with day_key := today, trades_today := 0, trades_today_by_pair := [] }
  else e

/-- `RiskEngine.paused` (`pf` = the pause file exists). -/
def RiskEngine.pausedB (pf : Bool) (e : RiskEngine) : Bool :=
  pf || e.pause_reason.isSome

/-- `RiskEngine.get_pause_reason`; `if self.pause_reason:` is Python
truthiness, so an empty-string reason falls through to the file check. -/
def get_pause_reason (pf : Bool) (e : RiskEngine) : String :=
  match e.pause_reason with
  | some r =>
      if r ≠ "" then r
      else if pf then "pause file present: " ++ e.pause_file else ""
  | none => if pf then "pause file present: " ++ e.pause_file else ""

/-- `RiskEngine._touch_pause`: records the reason in memory; the best-effort
pause-file write is an external effect with no bearing on the state (a
failed write still leaves `pause_reason` set). -/
def touch_pause (reason : String) (e : RiskEngine) : RiskEngine :=
  { e with pause_reason := some reason }

/-- `RiskEngine.update_portfolio_metrics`. -/
def update_portfolio_metrics (realized_pnl_usd max_drawdown_usd : Rat)
    (e : RiskEngine) : RiskEngine :=
  let e2 := { e with portfolio_realized := realized_pnl_usd,
                     portfolio_max_dd := max_drawdown_usd }
  if 0 < e2.max_daily_loss_usd ∧ e2.portfolio_realized ≤ -e2.max_daily_loss_usd then
    touch_pause ("circuit breaker: realized pnl "
      ++ pyFormatFixed 6 e2.portfolio_realized ++ " <= -"
      ++ pyFormatFixed 6 e2.max_daily_loss_usd) e2
  else if 0 < e2.max_drawdown_usd ∧ e2.max_drawdown_usd ≤ e2.portfolio_max_dd then
    touch_pause ("circuit breaker: max drawdown "
      ++ pyFormatFixed 6 e2.portfolio_max_dd ++ " >= "
      ++ pyFormatFixed 6 e2.max_drawdown_usd) e2
  else e2

/-- The checks of `RiskEngine.can_trade` after the day rollover (the
`mode` argument is unused by the source body as well).  `kf`/`pf` = the
kill-switch / pause marker files exist. -/
def can_trade_checks (kf pf : Bool) (notional_usd : Rat) (_mode : String)
    (pair : Option String) (e : RiskEngine) : RiskDecision :=
  if kf then ⟨false, "kill switch active"⟩
  else if e.pausedB pf then ⟨false, "paused: " ++ get_pause_reason pf e⟩
  else if e.max_notional_usd_per_trade < notional_usd then
    ⟨false, "max_notional_usd_per_trade exceeded (" ++ pyFormatFixed 2 notional_usd
      ++ " > " ++ pyFormatFixed 2 e.max_notional_usd_per_trade ++ ")"⟩
  else if e.max_trades_per_day ≤ e.trades_today then
    ⟨false, "max trades/day reached (" ++ toString e.trades_today ++ "/"
      ++ toString e.max_trades_per_day ++ ")"⟩
  else
    match pair with
    | some p =>
        -- `if pair:` — Python truthiness: `None` and `""` skip the per-pair check
        if p ≠ "" then
          let pt := alookupD e.trades_today_by_pair p 0
          if e.max_trades_per_day_per_pair ≤ pt then
            ⟨false, "max trades/day per pair reached (" ++ p ++ ": " ++ toString pt
              ++ "/" ++ toString e.max_trades_per_day_per_pair ++ ")"⟩
          else ⟨true, "ok"⟩
        else ⟨true, "ok"⟩
    | none => ⟨true, "ok"⟩

/-- `RiskEngine.can_trade`: day rollover first, then the check chain.
Returns the updated engine (the rollover mutates it) and the decision. -/
def can_trade (kf pf : Bool) (today : String) (notional_usd : Rat) (mode : String)
    (pair : Option String) (e : RiskEngine) : RiskEngine × RiskDecision :=
  let e2 := roll_day_if_needed today e
  (e2, can_trade_checks kf pf notional_usd mode pair e2)

/-- `RiskEngine.record_trade`. -/
def record_trade (today : String) (pair : Option String) (e : RiskEngine) :
    RiskEngine :=
  let e2 := roll_day_if_needed today e
  let e3 := { e2 with trades_today := e2.trades_today + 1 }
  match pair with
  | some p =>
      -- `if pair:` — truthiness again
      if p ≠ "" then
        { e3 with trades_today_by_pair := (aset e3.trades_today_by_pair p
            (alookupD e3.trades_today_by_pair p 0 + 1)) }
      else e3
  | none => e3

/-! ## Order-safety evaluator (src/app/exchange/kraken_orders.py)

Network inputs (`AssetPairs` metadata and the ticker) are explicit
arguments; everything else follows the source line by line.
-/

/-- The `OrderDecision` dataclass. -/
structure OrderDecision where
  pair : String
  side : String
  ordertype : String
  volume : String
  price : Option String
  mode : String
  notional_usd : Rat
  reason : String
deriving DecidableEq, Repr

/-- The `metrics` dict built by `build_order`. -/
structure OrderMetrics where
  bid : Rat
  ask : Rat
  last : Rat
  mid : Rat
  spread_pct : Rat
  slippage_pct : Rat
deriving DecidableEq, Repr

/-- The fields of `cfg["trading"]` that `build_order` reads. -/
structure TradingCfg where
  mode : String
  /-- `cfg["trading"].get("order_type", "limit")`. -/
  order_type : String := "limit"
  quote_notional_usd : Rat
deriving Repr

/-- The fields of `cfg["safety"]` that `build_order` reads. -/
structure SafetyCfg where
  max_spread_pct : Rat
  max_slippage_pct : Rat
  limit_offset_pct : Rat
deriving Repr

/-- The fields of the `AssetPairs` metadata that `build_order` reads
(`int(pair_info.get(..., default))`).  `ordermin` carries both the raw
printed form (interpolated into the block message) and its parsed numeric
value; an absent field — or one whose `float(...)` parse raises, which the
`try/except` turns into a skipped check — is `none`. -/
structure PairInfo where
  lot_decimals : Nat := 8
  cost_decimals : Nat := 2
  ordermin : Option (String × Rat) := none
deriving Repr

/-- Best bid / best ask / last trade price from the ticker. -/
structure Ticker where
  bid : Rat
  ask : Rat
  last : Rat
deriving Repr

/-- `_pct`. -/
def pct (x : Rat) : Rat := x * 100

/-- `_calc_spread_pct`. -/
def calc_spread_pct (bid ask : Rat) : Rat :=
  let mid := (bid + ask) / 2
  if mid ≤ 0 then 999
  else pct ((ask - bid) / mid)

/-- `_slippage_pct`. -/
def slippage_pct (ref current : Rat) : Rat :=
  if ref ≤ 0 then 999
  else pct (|current - ref| / ref)

/-- `build_order`, with the two network fetches replaced by the
`pair_info`/`tk` arguments.  `_format_volume`/`_format_dec` are
`pyFormatFixed`; the numeric value `float(vol_str)` used by the ordermin
comparison is `roundToDec`. -/
def build_order (trading : TradingCfg) (safety : SafetyCfg)
    (pair_key side : String) (base_volume_override : Option Rat)
    (pair_info : PairInfo) (tk : Ticker) : OrderDecision × OrderMetrics :=
  let mode := trading.mode
  let ordertype := trading.order_type
  let quote := trading.quote_notional_usd
  let bid := tk.bid
  let ask := tk.ask
  let last := tk.last
  let spread := calc_spread_pct bid ask
  let mid := (bid + ask) / 2
  let slip := slippage_pct mid last
  let metrics : OrderMetrics := ⟨bid, ask, last, mid, spread, slip⟩
  if safety.max_spread_pct < spread then
    (⟨pair_key, side, ordertype, "0", none, mode, quote,
      "blocked: spread " ++ pyFormatFixed 6 spread ++ "% > max "
        ++ pyFormatFixed 6 safety.max_spread_pct ++ "%"⟩, metrics)
  else if safety.max_slippage_pct < slip then
    (⟨pair_key, side, ordertype, "0", none, mode, quote,
      "blocked: slippage " ++ pyFormatFixed 6 slip ++ "% > max "
        ++ pyFormatFixed 6 safety.max_slippage_pct ++ "%"⟩, metrics)
  else
    let lot_decimals := pair_info.lot_decimals
    let cost_decimals := pair_info.cost_decimals
    let sized : Except OrderDecision (String × Rat × Rat) :=
      if side = "buy" then
        if last ≤ 0 then
          .error ⟨pair_key, side, ordertype, "0", none, mode, quote, "blocked: invalid last"⟩
        else
          let vol := quote / last
          .ok (pyFormatFixed lot_decimals vol, roundToDec lot_decimals vol, quote)
      else
        -- `if not base_volume_override or base_volume_override <= 0:`
        -- (`None` and `0.0` are both falsy, so the test is: absent or ≤ 0)
        match base_volume_override with
        | none =>
            .error ⟨pair_key, side, ordertype, "0", none, mode, 0, "blocked: no position volume"⟩
        | some v =>
            if v ≤ 0 then
              .error ⟨pair_key, side, ordertype, "0", none, mode, 0, "blocked: no position volume"⟩
            else
              .ok (pyFormatFixed lot_decimals v, roundToDec lot_decimals v, v * last)
    match sized with
    | .error od => (od, metrics)
    | .ok (vol_str, vol_val, notional) =>
      let finish : Unit → OrderDecision × OrderMetrics := fun _ =>
        let price_str : Option String :=
          if ordertype = "limit" then
            let px := if side = "buy" then ask * (1 + safety.limit_offset_pct / 100)
                      else bid * (1 - safety.limit_offset_pct / 100)
            some (pyFormatFixed cost_decimals px)
          else none
        (⟨pair_key, side, ordertype, vol_str, price_str, mode, notional, "ok"⟩, metrics)
      match pair_info.ordermin with
      | some om =>
          if vol_val < om.2 then
            (⟨pair_key, side, ordertype, vol_str, none, mode, notional,
              "blocked: below ordermin (" ++ om.1 ++ ")"⟩, metrics)
          else finish ()
      | none => finish ()

/-- External inputs of one `place_or_preview` call: marker-file state, the
wall-clock UTC day, the live latch (`/run/trading/ENABLE_LIVE_TRADING`),
and the `AddOrder` outcome (`none` = no error reported). -/
structure PlaceEnv where
  killFileExists : Bool
  pauseFileExists : Bool
  today : String
  liveLatch : Bool
  addOrderError : Option String
deriving Repr

/-- `place_or_preview`.  Returns the final decision, the metrics, and the
risk engine as left by the call (`can_trade` may roll the day;
`record_trade` runs only where the source calls it). -/
def place_or_preview (env : PlaceEnv) (trading : TradingCfg) (safety : SafetyCfg)
    (risk : RiskEngine) (pair_key side : String) (base_volume_override : Option Rat)
    (pair_info : PairInfo) (tk : Ticker) :
    OrderDecision × OrderMetrics × RiskEngine :=
  let bo := build_order trading safety pair_key side base_volume_override pair_info tk
  let od := bo.1
  let metrics := bo.2
  if od.reason ≠ "ok" then (od, metrics, risk)
  else
    let ct := can_trade env.killFileExists env.pauseFileExists env.today
      od.notional_usd od.mode (some pair_key) risk
    let risk2 := ct.1
    let rd := ct.2
    if !rd.allowed then
      ({ od with reason := "blocked by risk: " ++ rd.reason }, metrics, risk2)
    else if od.mode ≠ "live" then
      ({ od with reason := "dry-run" }, metrics, risk2)
    else if !env.liveLatch then
      ({ od with reason :=
          "blocked: live latch not enabled (/run/trading/ENABLE_LIVE_TRADING)" },
        metrics, risk2)
    else
      match env.addOrderError with
      | some err =>
          ({ od with reason := "AddOrder error: " ++ err }, metrics, risk2)
      | none =>
          ({ od with reason := "LIVE order placed" }, metrics,
            record_trade env.today (some pair_key) risk2)

/-! ## Ledger write protocol (src/app/util/ledger.py)

The claims about the ledger concern the observable filesystem operations a
mutation performs, so the embedding records those operations as a trace.
`open(path, "w")` followed by `json.dump` truncates and rewrites `path` in
place; `os.replace(src, dst)` is an atomic rename.
-/

/-- One observable filesystem operation of a writer. -/
inductive FsOp where
  /-- `os.makedirs(path, exist_ok=True)`. -/
  | makedirs (path : String)
  /-- `open(path, "w")` + write: truncate `path`, then write `content` in
  place (a concurrent reader can observe intermediate states). -/
  | writeFile (path : String) (content : String)
  /-- `os.replace(src, dst)`: atomic rename. -/
  | rename (src dst : String)
deriving DecidableEq, Repr

/-- `ledger.STATE_PATH`. -/
def STATE_PATH : String := "/data/state.json"

/-- The filesystem trace of `ledger._save_state(state)` (with `content` the
serialized document): `os.makedirs(os.path.dirname(STATE_PATH), ...)`, then
`open(STATE_PATH, "w")` + `json.dump` — a direct in-place rewrite of the
canonical path. -/
def save_state_trace (content : String) : List FsOp :=
  [.makedirs "/data", .writeFile STATE_PATH content]

/-- `set_position`, `clear_position` and `set_cooldown` all mutate the
document by read-modify-`_save_state`, so their write-side trace is
`_save_state`'s. -/
def set_position_trace (content : String) : List FsOp :=
  save_state_trace content

/-- `main.BOT_STATUS_PATH` (default). -/
def BOT_STATUS_PATH : String := "/data/bot_status.json"

/-- The filesystem trace of `main.write_bot_status` (same process, shown for
contrast): write to `BOT_STATUS_PATH + ".tmp"`, then `os.replace` it over
the canonical path. -/
def write_bot_status_trace (content : String) : List FsOp :=
  [.makedirs "/data",
   .writeFile (BOT_STATUS_PATH ++ ".tmp") content,
   .rename (BOT_STATUS_PATH ++ ".tmp") BOT_STATUS_PATH]

/-- Modelled from the spec: "write to a temporary location and rename over
the canonical path, so a reader never observes a half-written document" —
a trace is an atomic replace of `canonical` when no in-place write ever
targets `canonical` itself and the new content arrives by a rename onto
`canonical`. -/
def atomicReplaceWrite (canonical : String) (ops : List FsOp) : Prop :=
  (∀ op ∈ ops, ∀ c, op ≠ FsOp.writeFile canonical c) ∧
  (∃ tmp, FsOp.rename tmp canonical ∈ ops)

/-! ## PnL analytics (src/app/util/pnl_analytics.py)

`compute_pnl(trades, marks)` as a fold over the trade list.  The `ts` field
of the returned document is `int(time.time())` at call time, so the
wall-clock second `now` is an explicit third input of the embedding.
-/

/-- One row of the trade record (the dict `_read_trades` produces). -/
structure Trade where
  ts : Int
  pair : String
  side : String
  volume : Rat
  price : Rat
  notional_usd : Rat
  mode : String
deriving DecidableEq, Repr

/-- One value of the `per_pair` dict. -/
structure PairStat where
  realized_pnl_usd : Rat := 0
  unrealized_pnl_usd : Rat := 0
  net_pnl_usd : Rat := 0
  wins : Nat := 0
  losses : Nat := 0
  trades_closed : Nat := 0
  win_rate : Rat := 0
  open_position : Bool := false
  open_volume : Rat := 0
  entry_price : Rat := 0
  mark_price : Rat := 0
  last_event_ts : Int := 0
deriving DecidableEq, Repr

/-- The `portfolio` dict. -/
structure PortStat where
  realized_pnl_usd : Rat := 0
  unrealized_pnl_usd : Rat := 0
  net_pnl_usd : Rat := 0
  wins : Nat := 0
  losses : Nat := 0
  trades_closed : Nat := 0
  win_rate : Rat := 0
  max_drawdown_usd : Rat := 0
deriving DecidableEq, Repr

/-- One value of the `open_pos` dict. -/
structure OpenPos where
  vol : Rat
  entry_px : Rat
  entry_ts : Rat
  cost_usd : Rat
deriving DecidableEq, Repr

/-- The mutable state of `compute_pnl`'s main loop. -/
structure FoldSt where
  per_pair : List (String × PairStat)
  portfolio : PortStat
  open_pos : List (String × OpenPos)
  equity_points : List (Int × Rat)
  realized_equity : Rat
  peak_equity : Rat
  max_dd : Rat
deriving DecidableEq, Repr

/-- The state at the top of the loop. -/
def initFoldSt : FoldSt :=
  { per_pair := [], portfolio := {}, open_pos := [], equity_points := [],
    realized_equity := 0, peak_equity := 0, max_dd := 0 }

/-- `_pair_round`: `float(f"{x:.6f}")`. -/
def pair_round (x : Rat) : Rat := roundToDec 6 x

/-- One iteration of `compute_pnl`'s `for t in trades:` loop. -/
def processTrade (marks : List (String × Rat)) (st : FoldSt) (t : Trade) : FoldSt :=
  -- `if pair not in per_pair: per_pair[pair] = {...}` (fresh entry appended)
  let pp0 := if (alookup st.per_pair t.pair).isSome then st.per_pair
             else st.per_pair ++ [(t.pair, { mark_price := alookupD marks t.pair 0 })]
  -- `per_pair[pair]["last_event_ts"] = ts`
  let st1 := { st with per_pair := aupd pp0 t.pair (fun p => { p with last_event_ts := t.ts }) }
  if t.side = "buy" then
    -- open only `if pair not in open_pos or open_pos[pair].get("vol", 0.0) <= 0`
    let stale : Bool := match alookup st1.open_pos t.pair with
                        | none => true
                        | some op => decide (op.vol ≤ 0)
    if stale then
      { st1 with
          open_pos := aset st1.open_pos t.pair
            ⟨t.volume, t.price, (t.ts : Rat), t.volume * t.price⟩,
          per_pair := aupd st1.per_pair t.pair (fun p =>
            { p with open_position := true, open_volume := t.volume,
                     entry_price := t.price }) }
    else st1
  else if t.side = "sell" then
    match alookup st1.open_pos t.pair with
    | some op =>
        if 0 < op.vol then
          let entry_px := op.entry_px
          let entry_vol := op.vol
          let close_vol := if 0 < t.volume then min entry_vol t.volume else entry_vol
          let pnl := (t.price - entry_px) * close_vol
          let realized_equity := st1.realized_equity + pnl
          let peak_equity := max st1.peak_equity realized_equity
          let dd := peak_equity - realized_equity
          { st1 with
              per_pair := aupd st1.per_pair t.pair (fun p =>
                let p := { p with realized_pnl_usd := p.realized_pnl_usd + pnl,
                                  trades_closed := p.trades_closed + 1 }
                let p := if 0 ≤ pnl then { p with wins := p.wins + 1 }
                         else { p with losses := p.losses + 1 }
                { p with open_position := false, open_volume := 0, entry_price := 0 }),
              portfolio :=
                (let q := { st1.portfolio with
                    realized_pnl_usd := st1.portfolio.realized_pnl_usd + pnl,
                    trades_closed := st1.portfolio.trades_closed + 1 }
                 if 0 ≤ pnl then { q with wins := q.wins + 1 }
                 else { q with losses := q.losses + 1 }),
              open_pos := aset st1.open_pos t.pair ⟨0, 0, 0, 0⟩,
              equity_points := st1.equity_points ++ [(t.ts, realized_equity)],
              realized_equity := realized_equity,
              peak_equity := peak_equity,
              max_dd := max st1.max_dd dd }
        else st1
    | none => st1
  else st1

/-- The unrealized-PnL pass (`for pair, pos in open_pos.items():`), folded
over the open-position entries in insertion order; the accumulator is the
`per_pair` map plus the portfolio's running unrealized total.  (Every key of
`open_pos` was inserted by the main loop, which also created its `per_pair`
entry, so the `aupd` always finds its key.) -/
def unrealizedStep (marks : List (String × Rat))
    (acc : List (String × PairStat) × Rat) (pr : String × OpenPos) :
    List (String × PairStat) × Rat :=
  let vol := pr.2.vol
  let entry_px := pr.2.entry_px
  let mark := alookupD marks pr.1 0
  if 0 < vol ∧ 0 < entry_px ∧ 0 < mark then
    let u := (mark - entry_px) * vol
    (aupd acc.1 pr.1 (fun p =>
        { p with unrealized_pnl_usd := u, open_position := true,
                 open_volume := vol, entry_price := entry_px, mark_price := mark }),
      acc.2 + u)
  else acc

/-- The final per-pair rollup (`net_pnl_usd`, `win_rate`, `_pair_round`ing). -/
def rollupPair (st : PairStat) : PairStat :=
  let st := { st with net_pnl_usd := st.realized_pnl_usd + st.unrealized_pnl_usd }
  let st := { st with win_rate :=
    if 0 < st.trades_closed then (st.wins : Rat) / (st.trades_closed : Rat) else 0 }
  { st with
      realized_pnl_usd := pair_round st.realized_pnl_usd,
      unrealized_pnl_usd := pair_round st.unrealized_pnl_usd,
      net_pnl_usd := pair_round st.net_pnl_usd,
      win_rate := pair_round st.win_rate,
      mark_price := pair_round st.mark_price,
      entry_price := pair_round st.entry_price,
      open_volume := pair_round st.open_volume }

/-- The document `compute_pnl` returns. -/
structure PnlDoc where
  ts : Int
  portfolio : PortStat
  pairs : List (String × PairStat)
  equity_curve_realized : List (Int × Rat)
deriving DecidableEq, Repr

/-- `compute_pnl(trades, marks)`, with `now` the value of
`int(time.time())` at the moment of the call. -/
def compute_pnl (now : Int) (trades : List Trade) (marks : List (String × Rat)) :
    PnlDoc :=
  let st := trades.foldl (processTrade marks) initFoldSt
  let ppu := st.open_pos.foldl (unrealizedStep marks) (st.per_pair, 0)
  let pairs := ppu.1.map (fun pr => (pr.1, rollupPair pr.2))
  let port := { st.portfolio with unrealized_pnl_usd := ppu.2 }
  let port := { port with net_pnl_usd := port.realized_pnl_usd + port.unrealized_pnl_usd }
  let port := { port with win_rate :=
    if 0 < port.trades_closed then (port.wins : Rat) / (port.trades_closed : Rat) else 0 }
  let port := { port with max_drawdown_usd := st.max_dd }
  let port := { port with
      realized_pnl_usd := pair_round port.realized_pnl_usd,
      unrealized_pnl_usd := pair_round port.unrealized_pnl_usd,
      net_pnl_usd := pair_round port.net_pnl_usd,
      win_rate := pair_round port.win_rate,
      max_drawdown_usd := pair_round port.max_drawdown_usd }
  { ts := now, portfolio := port, pairs := pairs,
    equity_curve_realized :=
      st.equity_points.drop (st.equity_points.length - 200) }

/-! ## Shared helper lemmas -/

theorem String.ne_of_length_ne {s t : String} (h : s.length ≠ t.length) : s ≠ t :=
  fun he => h (he ▸ rfl)

/-- A string with a prefix of length ≥ 3 is not `"ok"`. -/
theorem prefixed_ne_ok (a t : String) (h : 3 ≤ a.length) : a ++ t ≠ "ok" := by
  apply String.ne_of_length_ne
  rw [String.length_append]
  have hok : ("ok" : String).length = 2 := rfl
  omega

/-- A string with a nonempty prefix is nonempty. -/
theorem prefixed_ne_empty (a t : String) (h : 1 ≤ a.length) : a ++ t ≠ "" := by
  apply String.ne_of_length_ne
  rw [String.length_append]
  have he : ("" : String).length = 0 := rfl
  omega

theorem strContains_of_append (a pat b : String) : strContains (a ++ pat ++ b) pat :=
  ⟨a, b, rfl⟩

theorem alookup_aset_self {α : Type} (l : List (String × α)) (k : String) (v : α) :
    alookup (aset l k v) k = some v := by
  induction l with
  | nil => simp [aset, alookup]
  | cons h t ih =>
      obtain ⟨k', w⟩ := h
      by_cases hk : k' = k
      · simp [aset, alookup, hk]
      · simp [aset, alookup, hk, ih]

theorem alookup_mem {α : Type} {l : List (String × α)} {k : String} {v : α}
    (h : alookup l k = some v) : (k, v) ∈ l := by
  induction l with
  | nil => simp [alookup] at h
  | cons hd t ih =>
      obtain ⟨k', w⟩ := hd
      by_cases hk : k' = k
      · subst hk
        simp [alookup] at h
        subst h
        exact List.mem_cons_self _ _
      · simp [alookup, hk] at h
        exact List.mem_cons_of_mem _ (ih h)

theorem mem_aset {α : Type} {l : List (String × α)} {k : String} {v : α}
    {p : String × α} (h : p ∈ aset l k v) : p ∈ l ∨ p = (k, v) := by
  induction l with
  | nil => simp [aset] at h; right; exact h
  | cons hd t ih =>
      obtain ⟨k', w⟩ := hd
      by_cases hk : k' = k
      · subst hk
        simp [aset] at h
        rcases h with h | h
        · right; exact h
        · left; exact List.mem_cons_of_mem _ h
      · simp [aset, hk] at h
        rcases h with h | h
        · left; rw [h]; exact List.mem_cons_self _ _
        · rcases ih h with h' | h'
          · left; exact List.mem_cons_of_mem _ h'
          · right; exact h'

theorem alookup_aupd {α : Type} (l : List (String × α)) (k : String) (f : α → α) :
    alookup (aupd l k f) k = (alookup l k).map f := by
  induction l with
  | nil => simp [aupd, alookup]
  | cons hd t ih =>
      obtain ⟨k', w⟩ := hd
      by_cases hk : k' = k
      · subst hk
        show alookup ((if k' = k' then (k', f w) else (k', w)) :: aupd t k' f) k' = _
        rw [if_pos rfl]
        simp [alookup]
      · show alookup ((if k' = k then (k', f w) else (k', w)) :: aupd t k f) k = _
        rw [if_neg hk]
        show (if k' = k then some w else alookup (aupd t k f) k) = _
        rw [if_neg hk, ih]
        show _ = (if k' = k then some w else alookup t k).map f
        rw [if_neg hk]

theorem alookup_append_right_isSome {α : Type} (l : List (String × α)) (k : String)
    (v : α) : (alookup (l ++ [(k, v)]) k).isSome = true := by
  induction l with
  | nil => simp [alookup]
  | cons hd t ih =>
      obtain ⟨k', w⟩ := hd
      by_cases hk : k' = k
      · simp [alookup, hk]
      · simp [alookup, hk, ih]

/-! ### RiskEngine helper lemmas -/

theorem roll_day_day_key (today : String) (e : RiskEngine) :
    (roll_day_if_needed today e).day_key = today := by
  unfold roll_day_if_needed
  split
  · rfl
  · next h => simpa using (not_ne_iff.mp h).symm

theorem roll_day_same (today : String) (e : RiskEngine) (h : e.day_key = today) :
    roll_day_if_needed today e = e := by
  unfold roll_day_if_needed
  simp [h]

theorem roll_day_resets (today : String) (e : RiskEngine) (h : today ≠ e.day_key) :
    (roll_day_if_needed today e).trades_today = 0 ∧
    (roll_day_if_needed today e).trades_today_by_pair = [] := by
  unfold roll_day_if_needed
  simp [h]

theorem roll_day_config (today : String) (e : RiskEngine) :
    (roll_day_if_needed today e).max_notional_usd_per_trade = e.max_notional_usd_per_trade ∧
    (roll_day_if_needed today e).max_trades_per_day = e.max_trades_per_day ∧
    (roll_day_if_needed today e).max_trades_per_day_per_pair = e.max_trades_per_day_per_pair ∧
    (roll_day_if_needed today e).max_daily_loss_usd = e.max_daily_loss_usd ∧
    (roll_day_if_needed today e).max_drawdown_usd = e.max_drawdown_usd ∧
    (roll_day_if_needed today e).pause_reason = e.pause_reason ∧
    (roll_day_if_needed today e).pause_file = e.pause_file := by
  unfold roll_day_if_needed
  split <;> exact ⟨rfl, rfl, rfl, rfl, rfl, rfl, rfl⟩

theorem roll_day_idem (today : String) (e : RiskEngine) :
    roll_day_if_needed today (roll_day_if_needed today e) = roll_day_if_needed today e :=
  roll_day_same today _ (roll_day_day_key today e)

theorem record_trade_roll (today : String) (p : Option String) (e : RiskEngine) :
    record_trade today p (roll_day_if_needed today e) = record_trade today p e := by
  unfold record_trade
  rw [roll_day_idem]

theorem can_trade_roll (kf pf : Bool) (today : String) (n : Rat) (m : String)
    (p : Option String) (e : RiskEngine) :
    can_trade kf pf today n m p (roll_day_if_needed today e) =
      can_trade kf pf today n m p e := by
  unfold can_trade
  rw [roll_day_idem]

theorem record_trade_trades_today (today : String) (p : Option String) (e : RiskEngine) :
    (record_trade today p e).trades_today = (roll_day_if_needed today e).trades_today + 1 := by
  unfold record_trade
  cases p with
  | none => rfl
  | some s => by_cases h : s ≠ "" <;> simp [h]

theorem record_trade_day_key (today : String) (p : Option String) (e : RiskEngine) :
    (record_trade today p e).day_key = today := by
  unfold record_trade
  cases p with
  | none => exact roll_day_day_key today e
  | some s =>
      by_cases h : s ≠ "" <;> simp [h, roll_day_day_key]

theorem record_trade_config (today : String) (p : Option String) (e : RiskEngine) :
    (record_trade today p e).max_notional_usd_per_trade = e.max_notional_usd_per_trade ∧
    (record_trade today p e).max_trades_per_day = e.max_trades_per_day ∧
    (record_trade today p e).max_trades_per_day_per_pair = e.max_trades_per_day_per_pair ∧
    (record_trade today p e).pause_reason = e.pause_reason := by
  obtain ⟨h1, h2, h3, _, _, h6, _⟩ := roll_day_config today e
  unfold record_trade
  cases p with
  | none => exact ⟨h1, h2, h3, h6⟩
  | some s => by_cases h : s ≠ "" <;> simp [h, h1, h2, h3, h6]

theorem can_trade_checks_deny_notional (kf pf : Bool) (n : Rat) (m : String)
    (p : Option String) (e : RiskEngine)
    (h : e.max_notional_usd_per_trade < n) :
    (can_trade_checks kf pf n m p e).allowed = false := by
  unfold can_trade_checks
  split_ifs <;> rfl

theorem can_trade_checks_deny_quota (kf pf : Bool) (n : Rat) (m : String)
    (p : Option String) (e : RiskEngine)
    (h : e.max_trades_per_day ≤ e.trades_today) :
    (can_trade_checks kf pf n m p e).allowed = false := by
  unfold can_trade_checks
  split_ifs <;> rfl

theorem can_trade_checks_paused_reason (pf : Bool) (n : Rat) (m : String)
    (p : Option String) (e : RiskEngine) (r : String)
    (hr : e.pause_reason = some r) (hne : r ≠ "") :
    can_trade_checks false pf n m p e = ⟨false, "paused: " ++ r⟩ := by
  simp [can_trade_checks, RiskEngine.pausedB, get_pause_reason, hr, hne]

/-- **C2.** For every `notional` strictly above `max_notional_usd_per_trade`,
`can_trade` denies regardless of kill/pause state, counters, pair and mode;
and in the spec scenario (`notional=25`, `mode="live"`, `pair="XBTUSD"`,
cap 20, no earlier check firing) the denial's reason mentions
"max_notional_usd_per_trade exceeded". -/
theorem can_trade_notional_cap :
    (∀ (kf pf : Bool) (today : String) (notional : Rat) (mode : String)
        (pair : Option String) (e : RiskEngine),
        e.max_notional_usd_per_trade < notional →
        ((can_trade kf pf today notional mode pair e).2).allowed = false) ∧
    (∀ (today : String) (e : RiskEngine),
        e.max_notional_usd_per_trade = 20 → e.pause_reason = none →
        ((can_trade false false today 25 "live" (some "XBTUSD") e).2).allowed = false ∧
        strContains ((can_trade false false today 25 "live" (some "XBTUSD") e).2).reason
          "max_notional_usd_per_trade exceeded") := by
  constructor
  · intro kf pf today notional mode pair e h
    show (can_trade_checks kf pf notional mode pair (roll_day_if_needed today e)).allowed
        = false
    exact can_trade_checks_deny_notional kf pf notional mode pair _
      (by rw [(roll_day_config today e).1]; exact h)
  · intro today e hmax hpr
    have hcfg := roll_day_config today e
    have hroll_max : (roll_day_if_needed today e).max_notional_usd_per_trade = 20 :=
      hcfg.1.trans hmax
    have hroll_pr : (roll_day_if_needed today e).pause_reason = none :=
      (hcfg.2.2.2.2.2.1).trans hpr
    have hd : (can_trade false false today 25 "live" (some "XBTUSD") e).2 =
        ⟨false, "max_notional_usd_per_trade exceeded (" ++ pyFormatFixed 2 25
          ++ " > " ++ pyFormatFixed 2 20 ++ ")"⟩ := by
      unfold can_trade
      norm_num [can_trade_checks, RiskEngine.pausedB, hroll_pr, hroll_max]
    rw [hd]
    exact ⟨rfl, "", " (25.00 > 20.00)", by decide⟩

/-- Witness for `can_trade_notional_cap` at a concrete engine. -/
theorem can_trade_notional_cap_witness :
    (RiskEngine.init "2026-01-01").max_notional_usd_per_trade < 25 ∧
    ((can_trade false false "2026-01-01" 25 "live" (some "XBTUSD")
        (RiskEngine.init "2026-01-01")).2).allowed = false ∧
    strContains ((can_trade false false "2026-01-01" 25 "live" (some "XBTUSD")
        (RiskEngine.init "2026-01-01")).2).reason "max_notional_usd_per_trade exceeded" :=
  ⟨by norm_num [RiskEngine.init],
   can_trade_notional_cap.1 false false "2026-01-01" 25 "live" (some "XBTUSD")
     (RiskEngine.init "2026-01-01") (by norm_num [RiskEngine.init]),
   (can_trade_notional_cap.2 "2026-01-01" (RiskEngine.init "2026-01-01") rfl rfl).2⟩

/-- **C6.** With `mid = (bid+ask)/2 ≤ 0` the spread function returns the
sentinel `999.0` (no division is reached), with `ref ≤ 0` the slippage
function returns `999.0`, and whenever `mid ≤ 0` and the configured
`max_spread_pct` is below the sentinel (true of the defaults 0.30/0.50),
`build_order` blocks with the spread reason. -/
theorem spread_slippage_sentinel :
    (∀ bid ask : Rat, (bid + ask) / 2 ≤ 0 → calc_spread_pct bid ask = 999) ∧
    (∀ ref current : Rat, ref ≤ 0 → slippage_pct ref current = 999) ∧
    (∀ (trading : TradingCfg) (safety : SafetyCfg) (pair_key side : String)
        (ov : Option Rat) (pinfo : PairInfo) (tk : Ticker),
        (tk.bid + tk.ask) / 2 ≤ 0 → safety.max_spread_pct < 999 →
        ∃ t, (build_order trading safety pair_key side ov pinfo tk).1.reason
            = "blocked: spread " ++ t ∧
          (build_order trading safety pair_key side ov pinfo tk).1.reason ≠ "ok") := by
  refine ⟨?_, ?_, ?_⟩
  · intro bid ask h
    unfold calc_spread_pct
    rw [if_pos h]
  · intro ref current h
    unfold slippage_pct
    rw [if_pos h]
  · intro trading safety pair_key side ov pinfo tk hmid hmax
    have hs : calc_spread_pct tk.bid tk.ask = 999 := by
      unfold calc_spread_pct
      rw [if_pos hmid]
    have hcond : safety.max_spread_pct < calc_spread_pct tk.bid tk.ask := by
      rw [hs]; exact hmax
    have hbo : (build_order trading safety pair_key side ov pinfo tk).1.reason
        = "blocked: spread " ++ pyFormatFixed 6 (calc_spread_pct tk.bid tk.ask)
          ++ "% > max " ++ pyFormatFixed 6 safety.max_spread_pct ++ "%" := by
      simp only [build_order]
      rw [if_pos hcond]
    refine ⟨pyFormatFixed 6 (calc_spread_pct tk.bid tk.ask)
      ++ ("% > max " ++ (pyFormatFixed 6 safety.max_spread_pct ++ "%")), ?_, ?_⟩
    · rw [hbo]
      simp [String.append_assoc]
    · rw [hbo]
      rw [String.append_assoc, String.append_assoc, String.append_assoc]
      exact prefixed_ne_ok _ _ (by decide)

/-- Witness for `spread_slippage_sentinel` at a crossed/degenerate book. -/
theorem spread_slippage_sentinel_witness :
    ((0 : Rat) + 0) / 2 ≤ 0 ∧ calc_spread_pct 0 0 = 999 ∧
    slippage_pct 0 100 = 999 ∧
    ∃ t, (build_order ⟨"dry_run", "limit", 10⟩ ⟨3/10, 1/2, 1/50⟩ "XXBTZUSD" "buy"
        none {} ⟨0, 0, 0⟩).1.reason = "blocked: spread " ++ t ∧
      (build_order ⟨"dry_run", "limit", 10⟩ ⟨3/10, 1/2, 1/50⟩ "XXBTZUSD" "buy"
        none {} ⟨0, 0, 0⟩).1.reason ≠ "ok" :=
  ⟨by norm_num,
   spread_slippage_sentinel.1 0 0 (by norm_num),
   spread_slippage_sentinel.2.1 0 100 (by norm_num),
   spread_slippage_sentinel.2.2 ⟨"dry_run", "limit", 10⟩ ⟨3/10, 1/2, 1/50⟩
     "XXBTZUSD" "buy" none {} ⟨0, 0, 0⟩ (by norm_num) (by norm_num)⟩

theorem build_order_spread_block (trading : TradingCfg) (safety : SafetyCfg)
    (pair_key side : String) (ov : Option Rat) (pinfo : PairInfo) (tk : Ticker)
    (h : safety.max_spread_pct < calc_spread_pct tk.bid tk.ask) :
    (build_order trading safety pair_key side ov pinfo tk).1 =
      ⟨pair_key, side, trading.order_type, "0", none, trading.mode,
       trading.quote_notional_usd,
       "blocked: spread " ++ pyFormatFixed 6 (calc_spread_pct tk.bid tk.ask)
         ++ "% > max " ++ pyFormatFixed 6 safety.max_spread_pct ++ "%"⟩ := by
  simp only [build_order]
  rw [if_pos h]

theorem build_order_slip_block (trading : TradingCfg) (safety : SafetyCfg)
    (pair_key side : String) (ov : Option Rat) (pinfo : PairInfo) (tk : Ticker)
    (h1 : ¬ safety.max_spread_pct < calc_spread_pct tk.bid tk.ask)
    (h2 : safety.max_slippage_pct < slippage_pct ((tk.bid + tk.ask) / 2) tk.last) :
    (build_order trading safety pair_key side ov pinfo tk).1 =
      ⟨pair_key, side, trading.order_type, "0", none, trading.mode,
       trading.quote_notional_usd,
       "blocked: slippage " ++ pyFormatFixed 6 (slippage_pct ((tk.bid + tk.ask) / 2) tk.last)
         ++ "% > max " ++ pyFormatFixed 6 safety.max_slippage_pct ++ "%"⟩ := by
  simp only [build_order]
  rw [if_neg h1, if_pos h2]

theorem build_order_invalid_last (trading : TradingCfg) (safety : SafetyCfg)
    (pair_key : String) (ov : Option Rat) (pinfo : PairInfo) (tk : Ticker)
    (h1 : ¬ safety.max_spread_pct < calc_spread_pct tk.bid tk.ask)
    (h2 : ¬ safety.max_slippage_pct < slippage_pct ((tk.bid + tk.ask) / 2) tk.last)
    (h3 : tk.last ≤ 0) :
    (build_order trading safety pair_key "buy" ov pinfo tk).1 =
      ⟨pair_key, "buy", trading.order_type, "0", none, trading.mode,
       trading.quote_notional_usd, "blocked: invalid last"⟩ := by
  simp only [build_order]
  rw [if_neg h1, if_neg h2]
  simp [h3]

theorem build_order_no_position (trading : TradingCfg) (safety : SafetyCfg)
    (pair_key side : String) (ov : Option Rat) (pinfo : PairInfo) (tk : Ticker)
    (h1 : ¬ safety.max_spread_pct < calc_spread_pct tk.bid tk.ask)
    (h2 : ¬ safety.max_slippage_pct < slippage_pct ((tk.bid + tk.ask) / 2) tk.last)
    (hside : side ≠ "buy")
    (hov : ov = none ∨ ∃ v, ov = some v ∧ v ≤ 0) :
    (build_order trading safety pair_key side ov pinfo tk).1 =
      ⟨pair_key, side, trading.order_type, "0", none, trading.mode, 0,
       "blocked: no position volume"⟩ := by
  simp only [build_order]
  rw [if_neg h1, if_neg h2]
  rcases hov with h | ⟨v, hv, hv0⟩
  · subst h
    simp [hside]
  · subst hv
    simp [hside, hv0]

theorem build_order_ordermin_block_buy (trading : TradingCfg) (safety : SafetyCfg)
    (pair_key : String) (ov : Option Rat) (pinfo : PairInfo) (tk : Ticker)
    (om : String × Rat)
    (h1 : ¬ safety.max_spread_pct < calc_spread_pct tk.bid tk.ask)
    (h2 : ¬ safety.max_slippage_pct < slippage_pct ((tk.bid + tk.ask) / 2) tk.last)
    (h3 : ¬ tk.last ≤ 0)
    (hom : pinfo.ordermin = some om)
    (hlt : roundToDec pinfo.lot_decimals (trading.quote_notional_usd / tk.last) < om.2) :
    (build_order trading safety pair_key "buy" ov pinfo tk).1 =
      ⟨pair_key, "buy", trading.order_type,
       pyFormatFixed pinfo.lot_decimals (trading.quote_notional_usd / tk.last), none,
       trading.mode, trading.quote_notional_usd,
       "blocked: below ordermin (" ++ om.1 ++ ")"⟩ := by
  simp only [build_order]
  rw [if_neg h1, if_neg h2]
  simp [h3, hom, hlt]

theorem build_order_ordermin_block_sell (trading : TradingCfg) (safety : SafetyCfg)
    (pair_key side : String) (v : Rat) (pinfo : PairInfo) (tk : Ticker)
    (om : String × Rat)
    (h1 : ¬ safety.max_spread_pct < calc_spread_pct tk.bid tk.ask)
    (h2 : ¬ safety.max_slippage_pct < slippage_pct ((tk.bid + tk.ask) / 2) tk.last)
    (hside : side ≠ "buy")
    (hv : ¬ v ≤ 0)
    (hom : pinfo.ordermin = some om)
    (hlt : roundToDec pinfo.lot_decimals v < om.2) :
    (build_order trading safety pair_key side (some v) pinfo tk).1 =
      ⟨pair_key, side, trading.order_type,
       pyFormatFixed pinfo.lot_decimals v, none,
       trading.mode, v * tk.last,
       "blocked: below ordermin (" ++ om.1 ++ ")"⟩ := by
  simp only [build_order]
  rw [if_neg h1, if_neg h2]
  simp [hside, hv, hom, hlt]

theorem build_order_ok_buy (trading : TradingCfg) (safety : SafetyCfg)
    (pair_key : String) (ov : Option Rat) (pinfo : PairInfo) (tk : Ticker)
    (h1 : ¬ safety.max_spread_pct < calc_spread_pct tk.bid tk.ask)
    (h2 : ¬ safety.max_slippage_pct < slippage_pct ((tk.bid + tk.ask) / 2) tk.last)
    (h3 : ¬ tk.last ≤ 0)
    (hmin : ∀ om, pinfo.ordermin = some om →
      ¬ roundToDec pinfo.lot_decimals (trading.quote_notional_usd / tk.last) < om.2) :
    (build_order trading safety pair_key "buy" ov pinfo tk).1 =
      ⟨pair_key, "buy", trading.order_type,
       pyFormatFixed pinfo.lot_decimals (trading.quote_notional_usd / tk.last),
       (if trading.order_type = "limit" then
          some (pyFormatFixed pinfo.cost_decimals
            (tk.ask * (1 + safety.limit_offset_pct / 100)))
        else none),
       trading.mode, trading.quote_notional_usd, "ok"⟩ := by
  simp only [build_order]
  rw [if_neg h1, if_neg h2]
  cases hom : pinfo.ordermin with
  | none => simp [h3, hom]
  | some om => simp [h3, hom, hmin om hom]

theorem build_order_ok_sell (trading : TradingCfg) (safety : SafetyCfg)
    (pair_key side : String) (v : Rat) (pinfo : PairInfo) (tk : Ticker)
    (h1 : ¬ safety.max_spread_pct < calc_spread_pct tk.bid tk.ask)
    (h2 : ¬ safety.max_slippage_pct < slippage_pct ((tk.bid + tk.ask) / 2) tk.last)
    (hside : side ≠ "buy")
    (hv : ¬ v ≤ 0)
    (hmin : ∀ om, pinfo.ordermin = some om →
      ¬ roundToDec pinfo.lot_decimals v < om.2) :
    (build_order trading safety pair_key side (some v) pinfo tk).1 =
      ⟨pair_key, side, trading.order_type,
       pyFormatFixed pinfo.lot_decimals v,
       (if trading.order_type = "limit" then
          some (pyFormatFixed pinfo.cost_decimals
            (tk.bid * (1 - safety.limit_offset_pct / 100)))
        else none),
       trading.mode, v * tk.last, "ok"⟩ := by
  simp only [build_order]
  rw [if_neg h1, if_neg h2]
  cases hom : pinfo.ordermin with
  | none => simp [hside, hv, hom]
  | some om => simp [hside, hv, hom, hmin om hom]

/-! ## The individual checks of `build_order`, as named predicates

Vocabulary for stating the first-failing-check property; each predicate is
the exact condition of the corresponding guard in the source.
-/

/-- Check 1: `spread > max_spread`. -/
def spread_check_fails (safety : SafetyCfg) (tk : Ticker) : Prop :=
  safety.max_spread_pct < calc_spread_pct tk.bid tk.ask

/-- Check 2: `slip > max_slip`. -/
def slippage_check_fails (safety : SafetyCfg) (tk : Ticker) : Prop :=
  safety.max_slippage_pct < slippage_pct ((tk.bid + tk.ask) / 2) tk.last

/-- Check 3 (sizing): a buy with `last ≤ 0`, or a sell with a missing or
non-positive position volume. -/
def sizing_check_fails (side : String) (ov : Option Rat) (tk : Ticker) : Prop :=
  (side = "buy" ∧ tk.last ≤ 0) ∨
  (side ≠ "buy" ∧ (ov = none ∨ ∃ v, ov = some v ∧ v ≤ 0))

/-- The raw volume the sizing step produces (`quote/last` for a buy, the
caller-supplied override for a sell). -/
def sized_volume (trading : TradingCfg) (side : String) (ov : Option Rat)
    (tk : Ticker) : Rat :=
  if side = "buy" then trading.quote_notional_usd / tk.last else ov.getD 0

/-- Check 4: the lot-rounded volume is below the instrument minimum. -/
def minsize_check_fails (trading : TradingCfg) (side : String) (ov : Option Rat)
    (pinfo : PairInfo) (tk : Ticker) : Prop :=
  ∃ om, pinfo.ordermin = some om ∧
    roundToDec pinfo.lot_decimals (sized_volume trading side ov tk) < om.2

/-- **C5.** `build_order` returns reason "ok" iff every check passes;
otherwise the reason names the first failing check in the order
spread, slippage, sizing, minimum-size — and a blocked decision never
reaches the limit-price computation (its price is `none`). -/
theorem build_order_first_failing_check (trading : TradingCfg) (safety : SafetyCfg)
    (pair_key side : String) (ov : Option Rat) (pinfo : PairInfo) (tk : Ticker) :
    ((build_order trading safety pair_key side ov pinfo tk).1.reason = "ok" ↔
      (¬ spread_check_fails safety tk ∧ ¬ slippage_check_fails safety tk ∧
       ¬ sizing_check_fails side ov tk ∧
       ¬ minsize_check_fails trading side ov pinfo tk)) ∧
    (spread_check_fails safety tk →
      ∃ t, (build_order trading safety pair_key side ov pinfo tk).1.reason
        = "blocked: spread " ++ t) ∧
    (¬ spread_check_fails safety tk → slippage_check_fails safety tk →
      ∃ t, (build_order trading safety pair_key side ov pinfo tk).1.reason
        = "blocked: slippage " ++ t) ∧
    (¬ spread_check_fails safety tk → ¬ slippage_check_fails safety tk →
      sizing_check_fails side ov tk →
      ((build_order trading safety pair_key side ov pinfo tk).1.reason
          = "blocked: invalid last" ∨
       (build_order trading safety pair_key side ov pinfo tk).1.reason
          = "blocked: no position volume")) ∧
    (¬ spread_check_fails safety tk → ¬ slippage_check_fails safety tk →
      ¬ sizing_check_fails side ov tk →
      minsize_check_fails trading side ov pinfo tk →
      ∃ raw, (build_order trading safety pair_key side ov pinfo tk).1.reason
        = "blocked: below ordermin (" ++ raw ++ ")") ∧
    ((build_order trading safety pair_key side ov pinfo tk).1.reason ≠ "ok" →
      (build_order trading safety pair_key side ov pinfo tk).1.price = none) := by
  by_cases hsp : spread_check_fails safety tk
  · rw [build_order_spread_block trading safety pair_key side ov pinfo tk hsp]
    refine ⟨iff_of_false ?_ (fun h => h.1 hsp), fun _ => ?_, ?_, ?_, ?_, fun _ => rfl⟩
    · simp only [String.append_assoc]
      exact prefixed_ne_ok _ _ (by decide)
    · simp only [String.append_assoc]
      exact ⟨_, rfl⟩
    · exact fun h => absurd hsp h
    · exact fun h => absurd hsp h
    · exact fun h => absurd hsp h
  by_cases hsl : slippage_check_fails safety tk
  · rw [build_order_slip_block trading safety pair_key side ov pinfo tk hsp hsl]
    refine ⟨iff_of_false ?_ (fun h => h.2.1 hsl), fun h => absurd h hsp,
      fun _ _ => ?_, fun _ h => absurd hsl h, fun _ h => absurd hsl h, fun _ => rfl⟩
    · simp only [String.append_assoc]
      exact prefixed_ne_ok _ _ (by decide)
    · simp only [String.append_assoc]
      exact ⟨_, rfl⟩
  by_cases hsz : sizing_check_fails side ov tk
  · rcases hsz with ⟨hside, hlast⟩ | ⟨hside, hov⟩
    · subst hside
      rw [build_order_invalid_last trading safety pair_key ov pinfo tk hsp hsl hlast]
      refine ⟨iff_of_false
          (by exact (by decide : ("blocked: invalid last" : String) ≠ "ok"))
          (fun h => h.2.2.1 (Or.inl ⟨rfl, hlast⟩)),
        fun h => absurd h hsp, fun _ h => absurd h hsl,
        fun _ _ _ => Or.inl rfl,
        fun _ _ h _ => absurd (Or.inl ⟨rfl, hlast⟩) h, fun _ => rfl⟩
    · rw [build_order_no_position trading safety pair_key side ov pinfo tk hsp hsl hside hov]
      refine ⟨iff_of_false
          (by exact (by decide : ("blocked: no position volume" : String) ≠ "ok"))
          (fun h => h.2.2.1 (Or.inr ⟨hside, hov⟩)),
        fun h => absurd h hsp, fun _ h => absurd h hsl,
        fun _ _ _ => Or.inr rfl,
        fun _ _ h _ => absurd (Or.inr ⟨hside, hov⟩) h, fun _ => rfl⟩
  by_cases hside : side = "buy"
  · subst hside
    have hlast : ¬ tk.last ≤ 0 := fun h => hsz (Or.inl ⟨rfl, h⟩)
    have hsv : sized_volume trading "buy" ov tk = trading.quote_notional_usd / tk.last := by
      simp [sized_volume]
    by_cases hmin : minsize_check_fails trading "buy" ov pinfo tk
    · obtain ⟨om, hom, hlt⟩ := hmin
      rw [hsv] at hlt
      rw [build_order_ordermin_block_buy trading safety pair_key ov pinfo tk om
        hsp hsl hlast hom hlt]
      refine ⟨iff_of_false ?_ (fun h => h.2.2.2 ⟨om, hom, by rw [hsv]; exact hlt⟩),
        fun h => absurd h hsp, fun _ h => absurd h hsl,
        fun _ _ h => absurd h hsz,
        fun _ _ _ _ => ⟨om.1, rfl⟩, fun _ => rfl⟩
      simp only [String.append_assoc]
      exact prefixed_ne_ok _ _ (by decide)
    · have hmin' : ∀ om, pinfo.ordermin = some om →
          ¬ roundToDec pinfo.lot_decimals (trading.quote_notional_usd / tk.last) < om.2 :=
        fun om hom hlt => hmin ⟨om, hom, by rw [hsv]; exact hlt⟩
      rw [build_order_ok_buy trading safety pair_key ov pinfo tk hsp hsl hlast hmin']
      exact ⟨iff_of_true rfl ⟨hsp, hsl, hsz, hmin⟩,
        fun h => absurd h hsp, fun _ h => absurd h hsl,
        fun _ _ h => absurd h hsz,
        fun _ _ _ h => absurd h hmin, fun h => absurd rfl h⟩
  · have hov : ∃ v, ov = some v ∧ ¬ v ≤ 0 := by
      cases hv : ov with
      | none => exact absurd (Or.inr ⟨hside, Or.inl hv⟩) hsz
      | some v =>
          refine ⟨v, rfl, fun hle => ?_⟩
          exact hsz (Or.inr ⟨hside, Or.inr ⟨v, hv, hle⟩⟩)
    obtain ⟨v, hv, hvpos⟩ := hov
    subst hv
    have hsv : sized_volume trading side (some v) tk = v := by
      simp [sized_volume, hside]
    by_cases hmin : minsize_check_fails trading side (some v) pinfo tk
    · obtain ⟨om, hom, hlt⟩ := hmin
      rw [hsv] at hlt
      rw [build_order_ordermin_block_sell trading safety pair_key side v pinfo tk om
        hsp hsl hside hvpos hom hlt]
      refine ⟨iff_of_false ?_ (fun h => h.2.2.2 ⟨om, hom, by rw [hsv]; exact hlt⟩),
        fun h => absurd h hsp, fun _ h => absurd h hsl,
        fun _ _ h => absurd h hsz,
        fun _ _ _ _ => ⟨om.1, rfl⟩, fun _ => rfl⟩
      simp only [String.append_assoc]
      exact prefixed_ne_ok _ _ (by decide)
    · have hmin' : ∀ om, pinfo.ordermin = some om →
          ¬ roundToDec pinfo.lot_decimals v < om.2 :=
        fun om hom hlt => hmin ⟨om, hom, by rw [hsv]; exact hlt⟩
      rw [build_order_ok_sell trading safety pair_key side v pinfo tk hsp hsl hside
        hvpos hmin']
      exact ⟨iff_of_true rfl ⟨hsp, hsl, hsz, hmin⟩,
        fun h => absurd h hsp, fun _ h => absurd h hsl,
        fun _ _ h => absurd h hsz,
        fun _ _ _ h => absurd h hmin, fun h => absurd rfl h⟩

/-- Witness for `build_order_first_failing_check`: a quote whose spread
exceeds the (zero) threshold is blocked with the spread reason. -/
theorem build_order_first_failing_check_witness :
    spread_check_fails ⟨0, 0, 0⟩ ⟨100, 102, 100⟩ ∧
    ∃ t, (build_order ⟨"dry_run", "limit", 10⟩ ⟨0, 0, 0⟩ "XXBTZUSD" "buy" none
      ⟨8, 2, none⟩ ⟨100, 102, 100⟩).1.reason = "blocked: spread " ++ t :=
  ⟨by norm_num [spread_check_fails, calc_spread_pct, pct],
   (build_order_first_failing_check ⟨"dry_run", "limit", 10⟩ ⟨0, 0, 0⟩ "XXBTZUSD"
       "buy" none ⟨8, 2, none⟩ ⟨100, 102, 100⟩).2.1
     (by norm_num [spread_check_fails, calc_spread_pct, pct])⟩

/-- **C4 (code bug).** `place_or_preview` only calls `record_trade` on the
LIVE placement path: a dry-run fill (final reason "dry-run") leaves the
daily counters untouched — at this passing order the engine still shows
zero trades instead of the one increment the spec requires. -/
theorem dry_run_fill_skips_record_trade :
    ((place_or_preview ⟨false, false, "2026-01-01", false, none⟩
        ⟨"dry_run", "limit", 10⟩ ⟨1, 1, 0⟩ (RiskEngine.init "2026-01-01")
        "XXBTZUSD" "buy" none ⟨8, 2, none⟩ ⟨1, 1, 1⟩).1.reason = "dry-run") ∧
    ((place_or_preview ⟨false, false, "2026-01-01", false, none⟩
        ⟨"dry_run", "limit", 10⟩ ⟨1, 1, 0⟩ (RiskEngine.init "2026-01-01")
        "XXBTZUSD" "buy" none ⟨8, 2, none⟩ ⟨1, 1, 1⟩).2.2.trades_today = 0) ∧
    ((place_or_preview ⟨false, false, "2026-01-01", false, none⟩
        ⟨"dry_run", "limit", 10⟩ ⟨1, 1, 0⟩ (RiskEngine.init "2026-01-01")
        "XXBTZUSD" "buy" none ⟨8, 2, none⟩ ⟨1, 1, 1⟩).2.2.trades_today ≠
      (RiskEngine.init "2026-01-01").trades_today + 1) ∧
    ((place_or_preview ⟨false, false, "2026-01-01", false, none⟩
        ⟨"dry_run", "limit", 10⟩ ⟨1, 1, 0⟩ (RiskEngine.init "2026-01-01")
        "XXBTZUSD" "buy" none ⟨8, 2, none⟩ ⟨1, 1, 1⟩).2.2.trades_today_by_pair = []) := by
  have hsp : ¬ (⟨1, 1, 0⟩ : SafetyCfg).max_spread_pct <
      calc_spread_pct (⟨1, 1, 1⟩ : Ticker).bid (⟨1, 1, 1⟩ : Ticker).ask := by
    norm_num [calc_spread_pct, pct]
  have hsl : ¬ (⟨1, 1, 0⟩ : SafetyCfg).max_slippage_pct <
      slippage_pct (((⟨1, 1, 1⟩ : Ticker).bid + (⟨1, 1, 1⟩ : Ticker).ask) / 2)
        (⟨1, 1, 1⟩ : Ticker).last := by
    norm_num [slippage_pct, pct]
  have hlast : ¬ (⟨1, 1, 1⟩ : Ticker).last ≤ 0 := by norm_num
  have hmin : ∀ om, (⟨8, 2, none⟩ : PairInfo).ordermin = some om →
      ¬ roundToDec (⟨8, 2, none⟩ : PairInfo).lot_decimals
        ((⟨"dry_run", "limit", 10⟩ : TradingCfg).quote_notional_usd /
          (⟨1, 1, 1⟩ : Ticker).last) < om.2 := by
    intro om hom
    simp at hom
  have hok := build_order_ok_buy ⟨"dry_run", "limit", 10⟩ ⟨1, 1, 0⟩ "XXBTZUSD"
    none ⟨8, 2, none⟩ ⟨1, 1, 1⟩ hsp hsl hlast hmin
  have hct : can_trade false false "2026-01-01" 10 "dry_run" (some "XXBTZUSD")
      (RiskEngine.init "2026-01-01") = (RiskEngine.init "2026-01-01", ⟨true, "ok"⟩) := by
    norm_num [can_trade, can_trade_checks, roll_day_if_needed, RiskEngine.init,
      RiskEngine.pausedB, alookupD, alookup]
  simp only [place_or_preview, hok, hct]
  simp [RiskEngine.init]

/-- **C8 counterexample.** `compute_pnl`'s output embeds the wall-clock
second as its `ts` field, so two calls on identical `(trades, marks)` at
different times return documents that differ (in `ts`): the function is not
pure in its two data arguments alone. -/
theorem compute_pnl_ts_not_pure :
    (compute_pnl 1 [] []).ts ≠ (compute_pnl 2 [] []).ts ∧
    compute_pnl 1 [] [] ≠ compute_pnl 2 [] [] := by
  constructor
  · show (1 : Int) ≠ (2 : Int)
    decide
  · intro h
    have := congrArg PnlDoc.ts h
    exact absurd this (by show (1 : Int) ≠ (2 : Int); decide)

/-- **C8 (amended).** All data fields of the document — `portfolio`,
`pairs`, and the realized-equity curve — are a pure function of
`(trades, marks)`: they are identical across calls at different times; only
the `ts` stamp varies. -/
theorem compute_pnl_pure_in_trades_marks (t1 t2 : Int) (trades : List Trade)
    (marks : List (String × Rat)) :
    (compute_pnl t1 trades marks).portfolio = (compute_pnl t2 trades marks).portfolio ∧
    (compute_pnl t1 trades marks).pairs = (compute_pnl t2 trades marks).pairs ∧
    (compute_pnl t1 trades marks).equity_curve_realized
      = (compute_pnl t2 trades marks).equity_curve_realized :=
  ⟨rfl, rfl, rfl⟩

/-- **C9 (code bug).** `_save_state` — and hence every ledger mutation —
truncates and rewrites `/data/state.json` in place: its filesystem trace
contains a direct write to the canonical path and no rename at all, so it is
not an atomic temp-and-rename replace.  (`main.write_bot_status`, shown for
contrast, does follow the atomic protocol for the status snapshot.) -/
theorem ledger_save_state_writes_in_place (content : String) :
    FsOp.writeFile STATE_PATH content ∈ set_position_trace content ∧
    (∀ src dst : String, FsOp.rename src dst ∉ set_position_trace content) ∧
    ¬ atomicReplaceWrite STATE_PATH (set_position_trace content) ∧
    atomicReplaceWrite BOT_STATUS_PATH (write_bot_status_trace content) := by
  refine ⟨?_, ?_, ?_, ?_, ?_⟩
  · simp [set_position_trace, save_state_trace]
  · intro src dst
    simp [set_position_trace, save_state_trace]
  · rintro ⟨h1, -⟩
    exact h1 (FsOp.writeFile STATE_PATH content)
      (by simp [set_position_trace, save_state_trace]) content rfl
  · intro op hop c
    simp [write_bot_status_trace] at hop
    rcases hop with h | h | h <;> subst h <;> simp [BOT_STATUS_PATH]
  · exact ⟨BOT_STATUS_PATH ++ ".tmp", by simp [write_bot_status_trace]⟩

/-- Folding `record_trade` over `pairs` within one UTC day keeps the day key,
adds `pairs.length` to the global counter, and preserves the configured cap. -/
theorem fold_record_trade (today : String) (pairs : List (Option String))
    (e : RiskEngine) (h : e.day_key = today) :
    (pairs.foldl (fun s p => record_trade today p s) e).day_key = today ∧
    (pairs.foldl (fun s p => record_trade today p s) e).trades_today
      = e.trades_today + pairs.length ∧
    (pairs.foldl (fun s p => record_trade today p s) e).max_trades_per_day
      = e.max_trades_per_day := by
  induction pairs generalizing e with
  | nil => exact ⟨h, by simp, rfl⟩
  | cons p t ih =>
      obtain ⟨hd, ht, hm⟩ := ih (record_trade today p e) (record_trade_day_key today p e)
      refine ⟨hd, ?_, hm.trans (record_trade_config today p e).2.1⟩
      show (t.foldl (fun s q => record_trade today q s) (record_trade today p e)).trades_today
          = e.trades_today + ((p :: t).length : Int)
      rw [ht, record_trade_trades_today, roll_day_same today e h]
      simp only [List.length_cons]
      push_cast
      omega

/-- **C3.** Once `n ≥ max_trades_per_day` trades have been recorded within
one UTC day, every further `can_trade` that day denies; and a day-key
mismatch resets both counters at the start of `can_trade` and
`record_trade`, before any counter is read or written. -/
theorem daily_quota_and_rollover :
    (∀ (e : RiskEngine) (today : String) (pairs : List (Option String)),
        e.day_key = today → 0 ≤ e.trades_today →
        e.max_trades_per_day ≤ (pairs.length : Int) →
        ∀ (kf pf : Bool) (n : Rat) (m : String) (p : Option String),
          ((can_trade kf pf today n m p
            (pairs.foldl (fun s q => record_trade today q s) e)).2).allowed = false) ∧
    (∀ (today : String) (e : RiskEngine), today ≠ e.day_key →
        (roll_day_if_needed today e).trades_today = 0 ∧
        (roll_day_if_needed today e).trades_today_by_pair = []) ∧
    (∀ (kf pf : Bool) (today : String) (n : Rat) (m : String) (p : Option String)
        (e : RiskEngine),
        can_trade kf pf today n m p e
          = can_trade kf pf today n m p (roll_day_if_needed today e)) ∧
    (∀ (today : String) (p : Option String) (e : RiskEngine),
        record_trade today p e = record_trade today p (roll_day_if_needed today e)) := by
  refine ⟨?_, ?_, ?_, ?_⟩
  · intro e today pairs hday hpos hcap kf pf n m p
    obtain ⟨hd, ht, hm⟩ := fold_record_trade today pairs e hday
    show (can_trade_checks kf pf n m p
      (roll_day_if_needed today (pairs.foldl (fun s q => record_trade today q s) e))).allowed
        = false
    rw [roll_day_same today _ hd]
    apply can_trade_checks_deny_quota
    rw [hm, ht]
    omega
  · exact fun today e h => roll_day_resets today e h
  · exact fun kf pf today n m p e => (can_trade_roll kf pf today n m p e).symm
  · exact fun today p e => (record_trade_roll today p e).symm

/-- Witness for `daily_quota_and_rollover`: three recorded trades exhaust the
default cap of 3, and a new day key resets the counters. -/
theorem daily_quota_and_rollover_witness :
    ((RiskEngine.init "2026-01-01").day_key = "2026-01-01" ∧
      0 ≤ (RiskEngine.init "2026-01-01").trades_today ∧
      (RiskEngine.init "2026-01-01").max_trades_per_day
        ≤ (([some "XBTUSD", some "XBTUSD", some "XBTUSD"] :
            List (Option String)).length : Int)) ∧
    ((can_trade false false "2026-01-01" 1 "dry_run" (some "XBTUSD")
        (([some "XBTUSD", some "XBTUSD", some "XBTUSD"] : List (Option String)).foldl
          (fun s q => record_trade "2026-01-01" q s)
          (RiskEngine.init "2026-01-01"))).2).allowed = false ∧
    ("2026-01-02" ≠ (RiskEngine.init "2026-01-01").day_key ∧
      (roll_day_if_needed "2026-01-02" (RiskEngine.init "2026-01-01")).trades_today = 0 ∧
      (roll_day_if_needed "2026-01-02" (RiskEngine.init "2026-01-01")).trades_today_by_pair
        = []) :=
  ⟨⟨rfl, by decide, by decide⟩,
   daily_quota_and_rollover.1 (RiskEngine.init "2026-01-01") "2026-01-01"
     [some "XBTUSD", some "XBTUSD", some "XBTUSD"] rfl (by decide) (by decide)
     false false 1 "dry_run" (some "XBTUSD"),
   by decide,
   (daily_quota_and_rollover.2.1 "2026-01-02" (RiskEngine.init "2026-01-01")
     (by decide)).1,
   (daily_quota_and_rollover.2.1 "2026-01-02" (RiskEngine.init "2026-01-01")
     (by decide)).2⟩

/-! ## Circuit-breaker stickiness -/

/-- The engine holds a circuit-breaker pause: `pause_reason` is set, and to a
string starting with "circuit breaker: " (both breaker messages do). -/
def engine_tripped (e : RiskEngine) : Prop :=
  ∃ r, e.pause_reason = some ("circuit breaker: " ++ r)

theorem update_portfolio_metrics_trips (e : RiskEngine) (realized maxDd : Rat)
    (h : (0 < e.max_daily_loss_usd ∧ realized ≤ -e.max_daily_loss_usd) ∨
         (0 < e.max_drawdown_usd ∧ e.max_drawdown_usd ≤ maxDd)) :
    engine_tripped (update_portfolio_metrics realized maxDd e) := by
  simp only [update_portfolio_metrics]
  by_cases h1 : 0 < e.max_daily_loss_usd ∧ realized ≤ -e.max_daily_loss_usd
  · rw [if_pos h1]
    refine ⟨"realized pnl " ++ pyFormatFixed 6 realized ++ " <= -"
      ++ pyFormatFixed 6 e.max_daily_loss_usd, ?_⟩
    show some _ = some _
    congr 1
  · rw [if_neg h1]
    have h2 : 0 < e.max_drawdown_usd ∧ e.max_drawdown_usd ≤ maxDd := h.resolve_left h1
    rw [if_pos h2]
    refine ⟨"max drawdown " ++ pyFormatFixed 6 maxDd ++ " >= "
      ++ pyFormatFixed 6 e.max_drawdown_usd, ?_⟩
    show some _ = some _
    congr 1

theorem tripped_update (e : RiskEngine) (realized maxDd : Rat)
    (h : engine_tripped e) :
    engine_tripped (update_portfolio_metrics realized maxDd e) := by
  simp only [update_portfolio_metrics]
  split_ifs with h1 h2
  · exact ⟨_, rfl⟩
  · exact ⟨_, rfl⟩
  · obtain ⟨r, hr⟩ := h
    exact ⟨r, hr⟩

theorem tripped_roll_day (today : String) (e : RiskEngine) (h : engine_tripped e) :
    engine_tripped (roll_day_if_needed today e) := by
  obtain ⟨r, hr⟩ := h
  exact ⟨r, ((roll_day_config today e).2.2.2.2.2.1).trans hr⟩

theorem tripped_record_trade (today : String) (p : Option String) (e : RiskEngine)
    (h : engine_tripped e) :
    engine_tripped (record_trade today p e) := by
  obtain ⟨r, hr⟩ := h
  exact ⟨r, ((record_trade_config today p e).2.2.2).trans hr⟩

theorem can_trade_checks_deny_paused (kf pf : Bool) (n : Rat) (m : String)
    (p : Option String) (e : RiskEngine) (r : String)
    (hr : e.pause_reason = some r) :
    (can_trade_checks kf pf n m p e).allowed = false := by
  unfold can_trade_checks
  split_ifs with h1 h2 <;> try rfl
  all_goals simp_all [RiskEngine.pausedB, hr]

/-- A tripped engine denies every `can_trade`, and when the kill-switch file
is absent the denial reason carries the circuit-breaker text. -/
theorem tripped_can_trade (kf pf : Bool) (today : String) (n : Rat) (m : String)
    (p : Option String) (e : RiskEngine) (h : engine_tripped e) :
    ((can_trade kf pf today n m p e).2).allowed = false ∧
    (kf = false →
      strContains ((can_trade kf pf today n m p e).2).reason "circuit breaker") := by
  obtain ⟨r, hr⟩ := tripped_roll_day today e h
  constructor
  · exact can_trade_checks_deny_paused kf pf n m p _ _ hr
  · intro hkf
    subst hkf
    have hne : ("circuit breaker: " ++ r) ≠ "" := prefixed_ne_empty _ _ (by decide)
    have hd := can_trade_checks_paused_reason pf n m p _ _ hr hne
    show strContains (can_trade_checks false pf n m p
      (roll_day_if_needed today e)).reason "circuit breaker"
    rw [hd]
    show strContains ("paused: " ++ ("circuit breaker: " ++ r)) "circuit breaker"
    refine ⟨"paused: ", ": " ++ r, ?_⟩
    have hsplit : ("circuit breaker: " : String) = "circuit breaker" ++ ": " := by decide
    rw [hsplit, ← String.append_assoc, ← String.append_assoc, String.append_assoc]

/-- Operations an engine instance undergoes after a trip, with their
per-call environment (no external operator action: no pause-file removal is
modelled, and the sticky `pause_reason` is in memory anyway). -/
inductive RiskOp where
  | update (realized maxDd : Rat)
  | record (today : String) (pair : Option String)
  | canTrade (kf pf : Bool) (today : String) (notional : Rat) (mode : String)
      (pair : Option String)

/-- Apply one operation to the engine state (a `can_trade` call mutates the
engine only through its day rollover). -/
def applyRiskOp (e : RiskEngine) : RiskOp → RiskEngine
  | .update realized maxDd => update_portfolio_metrics realized maxDd e
  | .record today pair => record_trade today pair e
  | .canTrade kf pf today notional mode pair =>
      (can_trade kf pf today notional mode pair e).1

theorem tripped_fold (ops : List RiskOp) (e : RiskEngine) (h : engine_tripped e) :
    engine_tripped (ops.foldl applyRiskOp e) := by
  induction ops generalizing e with
  | nil => exact h
  | cons op t ih =>
      refine ih (applyRiskOp e op) ?_
      cases op with
      | update realized maxDd => exact tripped_update e realized maxDd h
      | record today pair => exact tripped_record_trade today pair e h
      | canTrade kf pf today notional mode pair => exact tripped_roll_day today e h

/-- **C1.** Tripping a circuit breaker (a `update_portfolio_metrics` call
meeting either breaker condition) leaves the engine in a sticky paused
state: after any further sequence of engine operations — including
`update_portfolio_metrics` calls with improved numbers — the trip persists,
every `can_trade` denies, and (kill switch aside, placing one being an
operator action) the denial reason contains "circuit breaker". -/
theorem circuit_breaker_sticky (e : RiskEngine) (realized maxDd : Rat)
    (htrip : (0 < e.max_daily_loss_usd ∧ realized ≤ -e.max_daily_loss_usd) ∨
             (0 < e.max_drawdown_usd ∧ e.max_drawdown_usd ≤ maxDd))
    (ops : List RiskOp) :
    engine_tripped (ops.foldl applyRiskOp (update_portfolio_metrics realized maxDd e)) ∧
    ∀ (kf pf : Bool) (today : String) (n : Rat) (m : String) (p : Option String),
      ((can_trade kf pf today n m p
          (ops.foldl applyRiskOp (update_portfolio_metrics realized maxDd e))).2).allowed
        = false ∧
      (kf = false →
        strContains ((can_trade kf pf today n m p
            (ops.foldl applyRiskOp (update_portfolio_metrics realized maxDd e))).2).reason
          "circuit breaker") := by
  have h0 := update_portfolio_metrics_trips e realized maxDd htrip
  have h1 := tripped_fold ops _ h0
  exact ⟨h1, fun kf pf today n m p => tripped_can_trade kf pf today n m p _ h1⟩

/-- Witness for `circuit_breaker_sticky`: the spec scenario —
`max_daily_loss_usd=100`, `update_portfolio_metrics(-101, 0)`, then an
improved `update_portfolio_metrics(50, 0)` — still denies with a
"circuit breaker" reason. -/
theorem circuit_breaker_sticky_witness :
    ((0 : Rat) < ({ RiskEngine.init "2026-01-01" with
        max_daily_loss_usd := 100 } : RiskEngine).max_daily_loss_usd ∧
      (-101 : Rat) ≤ -({ RiskEngine.init "2026-01-01" with
        max_daily_loss_usd := 100 } : RiskEngine).max_daily_loss_usd) ∧
    engine_tripped ([RiskOp.update 50 0].foldl applyRiskOp
      (update_portfolio_metrics (-101) 0
        { RiskEngine.init "2026-01-01" with max_daily_loss_usd := 100 })) ∧
    ((can_trade false false "2026-01-01" 1 "dry_run" (some "XBTUSD")
        ([RiskOp.update 50 0].foldl applyRiskOp
          (update_portfolio_metrics (-101) 0
            { RiskEngine.init "2026-01-01" with
              max_daily_loss_usd := 100 }))).2).allowed = false ∧
    strContains ((can_trade false false "2026-01-01" 1 "dry_run" (some "XBTUSD")
        ([RiskOp.update 50 0].foldl applyRiskOp
          (update_portfolio_metrics (-101) 0
            { RiskEngine.init "2026-01-01" with
              max_daily_loss_usd := 100 }))).2).reason "circuit breaker" := by
  have h : (0 : Rat) < ({ RiskEngine.init "2026-01-01" with
      max_daily_loss_usd := 100 } : RiskEngine).max_daily_loss_usd ∧
      (-101 : Rat) ≤ -({ RiskEngine.init "2026-01-01" with
      max_daily_loss_usd := 100 } : RiskEngine).max_daily_loss_usd := by
    norm_num [RiskEngine.init]
  have T := circuit_breaker_sticky
    { RiskEngine.init "2026-01-01" with max_daily_loss_usd := 100 }
    (-101) 0 (Or.inl h) [RiskOp.update 50 0]
  exact ⟨h, T.1, (T.2 false false "2026-01-01" 1 "dry_run" (some "XBTUSD")).1,
    (T.2 false false "2026-01-01" 1 "dry_run" (some "XBTUSD")).2 rfl⟩

/-! ## PnL analytics lemmas -/

theorem roundScaled_intCast (p : Nat) (z : Int) :
    roundScaled p (z : Rat) = z * 10 ^ p := by
  have hnum : ((z : Rat)).num = z := rfl
  have hden : ((z : Rat)).den = 1 := rfl
  simp only [roundScaled, hnum, hden]
  norm_num [Int.fdiv_one]

theorem roundToDec_intCast (p : Nat) (z : Int) : roundToDec p (z : Rat) = z := by
  rw [roundToDec, roundScaled_intCast]
  push_cast
  rw [mul_div_assoc, div_self (by positivity), mul_one]

theorem pair_round_intCast (z : Int) : pair_round (z : Rat) = z :=
  roundToDec_intCast 6 z

/-- The pre-branch step of `processTrade` touches only `per_pair`. -/
theorem alookup_initPP_isSome (pp : List (String × PairStat)) (k : String)
    (v : PairStat) :
    (alookup (if (alookup pp k).isSome then pp else pp ++ [(k, v)]) k).isSome
      = true := by
  by_cases h : (alookup pp k).isSome
  · rw [if_pos h]; exact h
  · rw [if_neg h]; exact alookup_append_right_isSome pp k v

/-- Closing a lot: a sell while `open_pos[pair].vol > 0`.  Realized PnL grows
by `(price − entry) · close_vol` with `close_vol = min(open, vol)` when the
sell volume is positive and the full open volume otherwise; afterwards the
lot is zeroed and the pair's stats show no open position. -/
theorem processTrade_sell_close (marks : List (String × Rat)) (st : FoldSt)
    (t : Trade) (op : OpenPos)
    (hside : t.side = "sell")
    (hop : alookup st.open_pos t.pair = some op)
    (hvol : 0 < op.vol) :
    (processTrade marks st t).portfolio.realized_pnl_usd
      = st.portfolio.realized_pnl_usd
        + (t.price - op.entry_px)
          * (if 0 < t.volume then min op.vol t.volume else op.vol) ∧
    (processTrade marks st t).realized_equity
      = st.realized_equity
        + (t.price - op.entry_px)
          * (if 0 < t.volume then min op.vol t.volume else op.vol) ∧
    alookup (processTrade marks st t).open_pos t.pair = some ⟨0, 0, 0, 0⟩ ∧
    (∃ q, alookup (processTrade marks st t).per_pair t.pair = some q ∧
      q.open_position = false ∧ q.open_volume = 0 ∧ q.entry_price = 0) := by
  have h1 : (t.side = "buy") = False := by simp [hside]
  have h2 : (t.side = "sell") = True := by simp [hside]
  simp only [processTrade, h1, h2, if_false, if_true, hop]
  rw [if_pos hvol]
  refine ⟨?_, ?_, ?_, ?_⟩
  · split_ifs <;> rfl
  · rfl
  · exact alookup_aset_self _ _ _
  · rw [alookup_aupd, alookup_aupd]
    obtain ⟨p0, hp0⟩ := Option.isSome_iff_exists.mp
      (alookup_initPP_isSome st.per_pair t.pair
        { mark_price := alookupD marks t.pair 0 })
    simp only [hp0, Option.map_some]
    exact ⟨_, rfl, rfl, rfl, rfl⟩

/-- A sell with no open lot (absent entry, or a zeroed/stale one) leaves
realized PnL, win/loss counters, and the equity curve untouched. -/
theorem processTrade_sell_noop (marks : List (String × Rat)) (st : FoldSt)
    (t : Trade)
    (hside : t.side = "sell")
    (hop : alookup st.open_pos t.pair = none ∨
           ∃ op, alookup st.open_pos t.pair = some op ∧ op.vol ≤ 0) :
    (processTrade marks st t).portfolio = st.portfolio ∧
    (processTrade marks st t).equity_points = st.equity_points ∧
    (processTrade marks st t).realized_equity = st.realized_equity ∧
    (processTrade marks st t).max_dd = st.max_dd ∧
    (processTrade marks st t).open_pos = st.open_pos := by
  have h1 : (t.side = "buy") = False := by simp [hside]
  have h2 : (t.side = "sell") = True := by simp [hside]
  rcases hop with h | ⟨op, hsome, hle⟩
  · refine ⟨?_, ?_, ?_, ?_, ?_⟩ <;>
      simp only [processTrade, h1, h2, if_false, if_true, h]
  · have hnlt : ¬ 0 < op.vol := not_lt.mpr hle
    refine ⟨?_, ?_, ?_, ?_, ?_⟩ <;>
    · simp only [processTrade, h1, h2, if_false, if_true, hsome]
      rw [if_neg hnlt]

/-- **C7 (amended).** A sell processed with an open lot adds
`(sell_price − entry_price) · close_vol` to realized PnL, where
`close_vol = min(open_volume, sell_volume)` when the sell volume is
positive and the full `open_volume` otherwise (the code closes the whole
lot on a non-positive sell volume); the lot is then fully cleared.  A sell
with no open lot changes no realized-PnL, win/loss, or equity-curve state. -/
theorem compute_pnl_sell_semantics :
    (∀ (marks : List (String × Rat)) (st : FoldSt) (t : Trade) (op : OpenPos),
        t.side = "sell" → alookup st.open_pos t.pair = some op → 0 < op.vol →
        (processTrade marks st t).portfolio.realized_pnl_usd
          = st.portfolio.realized_pnl_usd
            + (t.price - op.entry_px)
              * (if 0 < t.volume then min op.vol t.volume else op.vol) ∧
        (processTrade marks st t).realized_equity
          = st.realized_equity
            + (t.price - op.entry_px)
              * (if 0 < t.volume then min op.vol t.volume else op.vol) ∧
        alookup (processTrade marks st t).open_pos t.pair = some ⟨0, 0, 0, 0⟩ ∧
        (∃ q, alookup (processTrade marks st t).per_pair t.pair = some q ∧
          q.open_position = false ∧ q.open_volume = 0 ∧ q.entry_price = 0)) ∧
    (∀ (marks : List (String × Rat)) (st : FoldSt) (t : Trade),
        t.side = "sell" →
        (alookup st.open_pos t.pair = none ∨
         ∃ op, alookup st.open_pos t.pair = some op ∧ op.vol ≤ 0) →
        (processTrade marks st t).portfolio = st.portfolio ∧
        (processTrade marks st t).equity_points = st.equity_points ∧
        (processTrade marks st t).realized_equity = st.realized_equity) :=
  ⟨fun marks st t op hside hop hvol =>
    processTrade_sell_close marks st t op hside hop hvol,
   fun marks st t hside hop =>
    ⟨(processTrade_sell_noop marks st t hside hop).1,
     (processTrade_sell_noop marks st t hside hop).2.1,
     (processTrade_sell_noop marks st t hside hop).2.2.1⟩⟩

/-- Witness for `compute_pnl_sell_semantics`: selling 2 units against an
open 1-unit lot bought at 100, at price 150, realizes `(150−100)·min(1,2)`. -/
theorem compute_pnl_sell_semantics_witness :
    (0 : Rat) < (⟨1, 100, 1, 100⟩ : OpenPos).vol ∧
    (processTrade []
        ⟨[("XBTUSD", {})], {}, [("XBTUSD", ⟨1, 100, 1, 100⟩)], [], 0, 0, 0⟩
        ⟨2, "XBTUSD", "sell", 2, 150, 0, "dry_run"⟩).portfolio.realized_pnl_usd
      = (0 : Rat) + ((150 : Rat) - 100) * (if (0 : Rat) < 2 then min 1 2 else 1) ∧
    alookup (processTrade []
        ⟨[("XBTUSD", {})], {}, [("XBTUSD", ⟨1, 100, 1, 100⟩)], [], 0, 0, 0⟩
        ⟨2, "XBTUSD", "sell", 2, 150, 0, "dry_run"⟩).open_pos "XBTUSD"
      = some ⟨0, 0, 0, 0⟩ :=
  ⟨by norm_num,
   (compute_pnl_sell_semantics.1 []
     ⟨[("XBTUSD", {})], {}, [("XBTUSD", ⟨1, 100, 1, 100⟩)], [], 0, 0, 0⟩
     ⟨2, "XBTUSD", "sell", 2, 150, 0, "dry_run"⟩ ⟨1, 100, 1, 100⟩
     rfl (by simp [alookup]) (by norm_num)).1,
   (compute_pnl_sell_semantics.1 []
     ⟨[("XBTUSD", {})], {}, [("XBTUSD", ⟨1, 100, 1, 100⟩)], [], 0, 0, 0⟩
     ⟨2, "XBTUSD", "sell", 2, 150, 0, "dry_run"⟩ ⟨1, 100, 1, 100⟩
     rfl (by simp [alookup]) (by norm_num)).2.2.1⟩

/-- **C7 counterexample.** On the history `[buy 1 @ 100, sell 0 @ 150]` the
code realizes `(150−100)·1 = 50` (it closes the full open volume when the
sell volume is non-positive), while the claim's formula
`(150−100)·min(1, 0)` yields `0`: the claimed `min(open, sell)` close
volume is wrong for a sell with volume `≤ 0`. -/
theorem sell_zero_volume_closes_full_lot :
    (compute_pnl 0
      [⟨1, "XBTUSD", "buy", 1, 100, 100, "dry_run"⟩,
       ⟨2, "XBTUSD", "sell", 0, 150, 0, "dry_run"⟩] []).portfolio.realized_pnl_usd
      = 50 ∧
    ((150 : Rat) - 100) * min (1 : Rat) 0 = 0 ∧ (50 : Rat) ≠ 0 := by
  have h50 : pair_round 50 = 50 := by
    have h := pair_round_intCast 50
    norm_num at h
    exact h
  have hsb : ("sell" = "buy") = False := by simp
  refine ⟨?_, by norm_num, by norm_num⟩
  norm_num [compute_pnl, List.foldl, processTrade, initFoldSt, alookup, alookupD,
    aset, aupd, h50, hsb]

/-- Exhaustive portfolio/open-position transitions of one `processTrade`
step: either the portfolio is untouched (and the only possible open-position
change is opening a fresh lot on a buy), or an open lot is closed — the
portfolio gains the close's PnL, a win when `pnl ≥ 0` and a loss otherwise,
and the lot is zeroed. -/
theorem processTrade_cases (marks : List (String × Rat)) (st : FoldSt) (t : Trade) :
    ((processTrade marks st t).portfolio = st.portfolio ∧
     ((processTrade marks st t).open_pos = st.open_pos ∨
      (processTrade marks st t).open_pos
        = aset st.open_pos t.pair ⟨t.volume, t.price, (t.ts : Rat), t.volume * t.price⟩)) ∨
    (∃ op, alookup st.open_pos t.pair = some op ∧ 0 < op.vol ∧ t.side = "sell" ∧
      (processTrade marks st t).portfolio
        = (if 0 ≤ (t.price - op.entry_px)
              * (if 0 < t.volume then min op.vol t.volume else op.vol)
           then { st.portfolio with
                  realized_pnl_usd := st.portfolio.realized_pnl_usd
                    + (t.price - op.entry_px)
                      * (if 0 < t.volume then min op.vol t.volume else op.vol),
                  trades_closed := st.portfolio.trades_closed + 1,
                  wins := st.portfolio.wins + 1 }
           else { st.portfolio with
                  realized_pnl_usd := st.portfolio.realized_pnl_usd
                    + (t.price - op.entry_px)
                      * (if 0 < t.volume then min op.vol t.volume else op.vol),
                  trades_closed := st.portfolio.trades_closed + 1,
                  losses := st.portfolio.losses + 1 }) ∧
      (processTrade marks st t).open_pos = aset st.open_pos t.pair ⟨0, 0, 0, 0⟩) := by
  by_cases hb : t.side = "buy"
  · have h1 : (t.side = "buy") = True := by simp [hb]
    left
    constructor
    · simp only [processTrade, h1, if_true]
      split <;> rfl
    · simp only [processTrade, h1, if_true]
      split
      · right; rfl
      · left; rfl
  · have h1 : (t.side = "buy") = False := by simp [hb]
    by_cases hs : t.side = "sell"
    · have h2 : (t.side = "sell") = True := by simp [hs]
      cases hl : alookup st.open_pos t.pair with
      | none =>
          left
          refine ⟨?_, Or.inl ?_⟩ <;> simp only [processTrade, h1, h2, if_false, if_true, hl]
      | some op =>
          by_cases hv : 0 < op.vol
          · right
            refine ⟨op, rfl, hv, hs, ?_, ?_⟩ <;>
            · simp only [processTrade, h1, h2, if_false, if_true, hl]
              rw [if_pos hv]
          · left
            refine ⟨?_, Or.inl ?_⟩ <;>
            · simp only [processTrade, h1, h2, if_false, if_true, hl]
              rw [if_neg hv]
    · have h2 : (t.side = "sell") = False := by simp [hs]
      left
      refine ⟨?_, Or.inl ?_⟩ <;> simp only [processTrade, h1, h2, if_false]

/-- Win/loss bookkeeping of a close: the win counter increments exactly when
`pnl ≥ 0` (breakeven included), the loss counter exactly when `pnl < 0`. -/
theorem processTrade_close_counts (marks : List (String × Rat)) (st : FoldSt)
    (t : Trade) (op : OpenPos)
    (hside : t.side = "sell")
    (hop : alookup st.open_pos t.pair = some op)
    (hvol : 0 < op.vol) :
    (processTrade marks st t).portfolio.wins
      = st.portfolio.wins
        + (if 0 ≤ (t.price - op.entry_px)
              * (if 0 < t.volume then min op.vol t.volume else op.vol)
           then 1 else 0) ∧
    (processTrade marks st t).portfolio.losses
      = st.portfolio.losses
        + (if (t.price - op.entry_px)
              * (if 0 < t.volume then min op.vol t.volume else op.vol) < 0
           then 1 else 0) ∧
    (processTrade marks st t).portfolio.trades_closed
      = st.portfolio.trades_closed + 1 := by
  have h1 : (t.side = "buy") = False := by rw [hside]; simp
  have h2 : (t.side = "sell") = True := by simp [hside]
  simp only [processTrade, h1, h2, if_false, if_true, hop]
  rw [if_pos hvol]
  set pnl := (t.price - op.entry_px)
    * (if 0 < t.volume then min op.vol t.volume else op.vol) with hpnl
  by_cases hp : 0 ≤ pnl
  · rw [if_pos hp, if_pos hp, if_neg (not_lt.mpr hp)]
    exact ⟨rfl, rfl, rfl⟩
  · rw [if_neg hp, if_neg hp, if_pos (lt_of_not_le hp)]
    exact ⟨rfl, rfl, rfl⟩

/-- `wins + losses = trades_closed` is preserved by the whole fold. -/
theorem fold_counts (marks : List (String × Rat)) (trades : List Trade)
    (st : FoldSt)
    (h : st.portfolio.wins + st.portfolio.losses = st.portfolio.trades_closed) :
    (trades.foldl (processTrade marks) st).portfolio.wins
      + (trades.foldl (processTrade marks) st).portfolio.losses
      = (trades.foldl (processTrade marks) st).portfolio.trades_closed := by
  induction trades generalizing st with
  | nil => exact h
  | cons t ts ih =>
      apply ih
      rcases processTrade_cases marks st t with ⟨hp, -⟩ | ⟨op, -, -, -, hp, -⟩
      · rw [hp]; exact h
      · rw [hp]
        split_ifs <;> simp <;> omega

/-- On a history whose trades all carry one price `p`, every close breaks
even, so no losses are ever counted and every close is a win. -/
theorem fold_const_price (marks : List (String × Rat)) (p : Rat)
    (trades : List Trade) :
    ∀ st : FoldSt,
    (∀ tr ∈ trades, tr.price = p) →
    st.portfolio.losses = 0 →
    st.portfolio.wins = st.portfolio.trades_closed →
    (∀ pr ∈ st.open_pos, 0 < pr.2.vol → pr.2.entry_px = p) →
    (trades.foldl (processTrade marks) st).portfolio.losses = 0 ∧
    (trades.foldl (processTrade marks) st).portfolio.wins
      = (trades.foldl (processTrade marks) st).portfolio.trades_closed := by
  induction trades with
  | nil => exact fun st _ hl hw _ => ⟨hl, hw⟩
  | cons t ts ih =>
      intro st hp hl hw hopen
      have hpt : t.price = p := hp t (List.mem_cons_self t ts)
      have hp' : ∀ tr ∈ ts, tr.price = p := fun tr htr => hp tr (List.mem_cons_of_mem _ htr)
      rcases processTrade_cases marks st t with ⟨hport, hops⟩ | ⟨op, hlk, hv, -, hport, hopos⟩
      · refine ih (processTrade marks st t) hp' (by rw [hport]; simpa using hl)
          (by rw [hport]; simpa using hw) ?_
        rcases hops with hsame | hnew
        · rw [hsame]; exact hopen
        · rw [hnew]
          intro pr hpr hprv
          rcases mem_aset hpr with hold | heq
          · exact hopen pr hold hprv
          · rw [heq]
            exact hpt
      · have hpx : op.entry_px = p := hopen (t.pair, op) (alookup_mem hlk) hv
        have hzero : (t.price - op.entry_px)
            * (if 0 < t.volume then min op.vol t.volume else op.vol) = 0 := by
          rw [hpt, hpx, sub_self, zero_mul]
        rw [hzero] at hport
        rw [if_pos le_rfl] at hport
        refine ih (processTrade marks st t) hp' (by rw [hport]; simpa using hl)
          (by rw [hport]; simp; omega) ?_
        rw [hopos]
        intro pr hpr hprv
        rcases mem_aset hpr with hold | heq
        · exact hopen pr hold hprv
        · rw [heq] at hprv
          norm_num at hprv

/-- The `compute_pnl` rollup leaves the integer counters of the fold state
untouched and computes `win_rate` from them. -/
theorem compute_pnl_portfolio_proj (now : Int) (trades : List Trade)
    (marks : List (String × Rat)) :
    (compute_pnl now trades marks).portfolio.wins
      = (trades.foldl (processTrade marks) initFoldSt).portfolio.wins ∧
    (compute_pnl now trades marks).portfolio.losses
      = (trades.foldl (processTrade marks) initFoldSt).portfolio.losses ∧
    (compute_pnl now trades marks).portfolio.trades_closed
      = (trades.foldl (processTrade marks) initFoldSt).portfolio.trades_closed ∧
    (compute_pnl now trades marks).portfolio.win_rate
      = pair_round
          (if 0 < (trades.foldl (processTrade marks) initFoldSt).portfolio.trades_closed
           then ((trades.foldl (processTrade marks) initFoldSt).portfolio.wins : Rat)
             / ((trades.foldl (processTrade marks) initFoldSt).portfolio.trades_closed : Rat)
           else 0) :=
  ⟨rfl, rfl, rfl, rfl⟩

/-- **C10.** A closed trade with PnL exactly zero counts as a win: the win
counter increments exactly when `pnl ≥ 0` and the loss counter only for
strictly negative PnL; wins and losses always sum to `trades_closed`; and on
a history whose trades all share one price (every close breaks even) the
portfolio shows `wins = trades_closed`, zero losses, and `win_rate = 1.0`
despite zero profit. -/
theorem breakeven_close_counts_as_win :
    (∀ (marks : List (String × Rat)) (st : FoldSt) (t : Trade) (op : OpenPos),
        t.side = "sell" → alookup st.open_pos t.pair = some op → 0 < op.vol →
        (processTrade marks st t).portfolio.wins
          = st.portfolio.wins
            + (if 0 ≤ (t.price - op.entry_px)
                  * (if 0 < t.volume then min op.vol t.volume else op.vol)
               then 1 else 0) ∧
        (processTrade marks st t).portfolio.losses
          = st.portfolio.losses
            + (if (t.price - op.entry_px)
                  * (if 0 < t.volume then min op.vol t.volume else op.vol) < 0
               then 1 else 0)) ∧
    (∀ (now : Int) (trades : List Trade) (marks : List (String × Rat)),
        (compute_pnl now trades marks).portfolio.wins
          + (compute_pnl now trades marks).portfolio.losses
          = (compute_pnl now trades marks).portfolio.trades_closed) ∧
    (∀ (p : Rat) (now : Int) (trades : List Trade) (marks : List (String × Rat)),
        (∀ tr ∈ trades, tr.price = p) →
        (compute_pnl now trades marks).portfolio.wins
          = (compute_pnl now trades marks).portfolio.trades_closed ∧
        (compute_pnl now trades marks).portfolio.losses = 0 ∧
        (0 < (compute_pnl now trades marks).portfolio.trades_closed →
          (compute_pnl now trades marks).portfolio.win_rate = 1)) := by
  have hpr1 : pair_round 1 = 1 := by
    have h := pair_round_intCast 1
    norm_num at h
    exact h
  refine ⟨?_, ?_, ?_⟩
  · intro marks st t op hside hop hvol
    obtain ⟨hw, hl, -⟩ := processTrade_close_counts marks st t op hside hop hvol
    exact ⟨hw, hl⟩
  · intro now trades marks
    obtain ⟨hw, hl, hc, -⟩ := compute_pnl_portfolio_proj now trades marks
    rw [hw, hl, hc]
    exact fold_counts marks trades initFoldSt rfl
  · intro p now trades marks hp
    obtain ⟨hl0, hwc⟩ := fold_const_price marks p trades initFoldSt hp rfl rfl
      (by intro pr hpr; simp [initFoldSt] at hpr)
    obtain ⟨hw, hl, hc, hwr⟩ := compute_pnl_portfolio_proj now trades marks
    refine ⟨by rw [hw, hc, hwc], by rw [hl, hl0], ?_⟩
    intro htc
    rw [hc] at htc
    rw [hwr, if_pos htc, hwc, div_self (Nat.cast_ne_zero.mpr htc.ne'), hpr1]

/-- Witness for `breakeven_close_counts_as_win`: a breakeven close (sell at
the entry price 100) counts as a win, and the two-trade breakeven history
shows `wins = trades_closed`, no losses, `win_rate = 1`. -/
theorem breakeven_close_counts_as_win_witness :
    (0 : Rat) < (⟨1, 100, 1, 100⟩ : OpenPos).vol ∧
    (processTrade []
        ⟨[("XBTUSD", {})], {}, [("XBTUSD", ⟨1, 100, 1, 100⟩)], [], 0, 0, 0⟩
        ⟨2, "XBTUSD", "sell", 1, 100, 0, "dry_run"⟩).portfolio.wins
      = (0 : Nat)
        + (if (0 : Rat) ≤ ((100 : Rat) - 100) * (if (0 : Rat) < 1 then min 1 1 else 1)
           then 1 else 0) ∧
    (∀ tr ∈ [(⟨1, "XBTUSD", "buy", 1, 100, 100, "dry_run"⟩ : Trade),
             ⟨2, "XBTUSD", "sell", 1, 100, 100, "dry_run"⟩], tr.price = (100 : Rat)) ∧
    (compute_pnl 7
        [⟨1, "XBTUSD", "buy", 1, 100, 100, "dry_run"⟩,
         ⟨2, "XBTUSD", "sell", 1, 100, 100, "dry_run"⟩] []).portfolio.wins
      = (compute_pnl 7
        [⟨1, "XBTUSD", "buy", 1, 100, 100, "dry_run"⟩,
         ⟨2, "XBTUSD", "sell", 1, 100, 100, "dry_run"⟩] []).portfolio.trades_closed ∧
    (compute_pnl 7
        [⟨1, "XBTUSD", "buy", 1, 100, 100, "dry_run"⟩,
         ⟨2, "XBTUSD", "sell", 1, 100, 100, "dry_run"⟩] []).portfolio.losses = 0 := by
  have hp : ∀ tr ∈ [(⟨1, "XBTUSD", "buy", 1, 100, 100, "dry_run"⟩ : Trade),
      ⟨2, "XBTUSD", "sell", 1, 100, 100, "dry_run"⟩], tr.price = (100 : Rat) := by
    intro tr htr
    fin_cases htr <;> rfl
  have h3 := breakeven_close_counts_as_win.2.2 100 7
    [⟨1, "XBTUSD", "buy", 1, 100, 100, "dry_run"⟩,
     ⟨2, "XBTUSD", "sell", 1, 100, 100, "dry_run"⟩] [] hp
  exact ⟨by norm_num,
    (breakeven_close_counts_as_win.1 []
      ⟨[("XBTUSD", {})], {}, [("XBTUSD", ⟨1, 100, 1, 100⟩)], [], 0, 0, 0⟩
      ⟨2, "XBTUSD", "sell", 1, 100, 0, "dry_run"⟩ ⟨1, 100, 1, 100⟩
      rfl (by simp [alookup]) (by norm_num)).1,
    hp, h3.1, h3.2.1⟩
